import Mathlib

/-!
Verification development for the tldraw-cli diagram-DSL compiler and
geometry/rendering pipeline.

The TypeScript sources are embedded shallowly over exact rationals (`ℚ`):
JavaScript numbers are IEEE floats, but every algorithm verified here
(layout cursors, grid offset accumulation, bounding boxes, viewport
computation, token scanning) uses only ring operations, `min`/`max`,
absolute value and `Math.ceil`, all of which the rational model captures
exactly.  `Number.isFinite` guards from the source are noted where they
become vacuous (`ℚ` has no non-finite values).  Fallible TypeScript code
(functions that `throw`) is modelled with `Except String`.
-/

namespace TldrawCli

/-- A 2-D point with rational coordinates. -/
structure Point where
  x : ℚ
  y : ℚ
deriving DecidableEq, Repr

/-- `LayoutShape` from `src/store/layout.ts`: width and height of a shape
participating in a stack or grid layout. -/
structure LayoutShape where
  w : ℚ
  h : ℚ
deriving DecidableEq, Repr

/-- `LayoutDirection` from `src/store/layout.ts`. -/
inductive LayoutDirection where
  | horizontal
  | vertical
deriving DecidableEq, Repr

/-- The `/\\s/` test of the lexer and the whitespace class of
`String.prototype.trim`: JavaScript whitespace, restricted to the ASCII
whitespace characters. -/
def isWhitespaceChar (c : Char) : Bool :=
  c = ' ' || c = '\t' || c = '\n' || c = '\r'

/-- JavaScript `String.prototype.trim` on a character list. -/
def trimChars (l : List Char) : List Char :=
  (((l.dropWhile (fun c => isWhitespaceChar c)).reverse.dropWhile
    (fun c => isWhitespaceChar c)).reverse)

/-- JavaScript `String.prototype.trim` (implemented over the character list
so that concrete instances evaluate inside the kernel). -/
def trimStr (s : String) : String :=
  ⟨trimChars s.data⟩

/-- JavaScript `String.prototype.split` with a single-character separator. -/
def splitOnChar (sep : Char) : List Char → List (List Char)
  | [] => [[]]
  | c :: rest =>
    if c = sep then [] :: splitOnChar sep rest
    else
      match splitOnChar sep rest with
      | h :: t => (c :: h) :: t
      | [] => [[c]]

/-- `s.split(sep)` on strings. -/
def splitStr (sep : Char) (s : String) : List String :=
  (splitOnChar sep s.data).map (fun l => ⟨l⟩)

/-- `Array.prototype.join(sep)` on character lists. -/
def joinSep (sep : List Char) : List (List Char) → List Char
  | [] => []
  | [x] => x
  | x :: y :: t => x ++ sep ++ joinSep sep (y :: t)

/-- `parts.join(sep)` on strings. -/
def joinStr (sep : String) (parts : List String) : String :=
  ⟨joinSep sep.data (parts.map String.data)⟩

/-- `validateDimension` from `src/store/layout.ts`: a width or height must be a
finite positive number (finiteness is automatic over `ℚ`). -/
def validateDimension (label : String) (value : ℚ) : Except String Unit :=
  if value ≤ 0 then
    .error ("Invalid " ++ label ++ ": must be a positive number.")
  else
    .ok ()

/-- `validateGap` from `src/store/layout.ts`: the gap must be finite and ≥ 0. -/
def validateGap (gap : ℚ) : Except String Unit :=
  if gap < 0 then
    .error "Invalid gap: must be zero or greater."
  else
    .ok ()

/-- `validateOrigin` from `src/store/layout.ts`: origin coordinates must be
finite, which is automatic over `ℚ`, so the model never fails here. -/
def validateOrigin (_origin : Point) : Except String Unit :=
  .ok ()

/-- The sequential mapping loop inside `stackShapes`: carry the cursor through
the list, validating each shape's dimensions as the source does inside its
`map` callback. -/
def stackShapesGo {α : Type} (getW getH : α → ℚ) (direction : LayoutDirection)
    (gap : ℚ) : List α → Point → Except String (List (α × Point))
  | [], _ => .ok []
  | shape :: rest, cursor => do
    (validateDimension "width" (getW shape)).bind fun _ =>
    (validateDimension "height" (getH shape)).bind fun _ =>
    let next : Point :=
      match direction with
      | .vertical => ⟨cursor.x, cursor.y + getH shape + gap⟩
      | .horizontal => ⟨cursor.x + getW shape + gap, cursor.y⟩
    (stackShapesGo getW getH direction gap rest next).map
      fun tail => (shape, cursor) :: tail

/-- `stackShapes` from `src/store/layout.ts`: place shapes sequentially from
`origin`, advancing a single cursor along the stacking axis by each shape's
extent plus `gap`.  The source is generic in the record type `T extends
LayoutShape`; the model is generic in `α` with explicit width/height
projections, returning each input paired with its assigned position. -/
def stackShapes {α : Type} (getW getH : α → ℚ) (shapes : List α)
    (direction : LayoutDirection) (origin : Point) (gap : ℚ) :
    Except String (List (α × Point)) := do
  (validateOrigin origin).bind fun _ =>
  (validateGap gap).bind fun _ =>
  stackShapesGo getW getH direction gap shapes origin

/-- The positions `stackShapes` assigns when every dimension is valid: the
same cursor recursion with the validation stripped (used to state and prove
facts about the successful path). -/
def stackPositions {α : Type} (getW getH : α → ℚ) (direction : LayoutDirection)
    (gap : ℚ) : List α → Point → List (α × Point)
  | [], _ => []
  | shape :: rest, cursor =>
    let next : Point :=
      match direction with
      | .vertical => ⟨cursor.x, cursor.y + getH shape + gap⟩
      | .horizontal => ⟨cursor.x + getW shape + gap, cursor.y⟩
    (shape, cursor) :: stackPositions getW getH direction gap rest next

/-- Validate every shape's width and height in input order, stopping at the
first failure — observably the same error behaviour as the validation calls
inside the accumulation loop of `gridShapes`. -/
def validateShapesG {α : Type} (getW getH : α → ℚ) : List α → Except String Unit
  | [] => .ok ()
  | s :: rest =>
    (validateDimension "width" (getW s)).bind fun _ =>
    (validateDimension "height" (getH s)).bind fun _ =>
    validateShapesG getW getH rest

/-- One step of the per-column/per-row maximum accumulation in `gridShapes`:
`acc[i] = Math.max(acc[i] ?? 0, v)`. -/
def bumpMax (l : List ℚ) (i : ℕ) (v : ℚ) : List ℚ :=
  l.set i (max (l.getD i 0) v)

/-- The column-offset / row-offset accumulation loop of `gridShapes`:
`offsets[0] = start`, `offsets[k] = offsets[k-1] + extents[k-1] + gap`. -/
def offsetsFrom (start gap : ℚ) : List ℚ → List ℚ
  | [] => []
  | w :: rest => start :: offsetsFrom (start + w + gap) gap rest

/-- `gridShapes` from `src/store/layout.ts`: place shape `i` in column
`i % cols` and row `i / cols`, where column x-offsets accumulate per-column
maximum widths plus `gap` from `origin.x` and row y-offsets accumulate
per-row maximum heights plus `gap` from `origin.y`.  `cols` is taken as a
rational and validated to be a positive integer, mirroring
`Number.isInteger(cols) && cols > 0`. -/
def gridShapes {α : Type} (getW getH : α → ℚ) (shapes : List α) (origin : Point)
    (cols : ℚ) (gap : ℚ) : Except String (List (α × Point)) :=
  (validateOrigin origin).bind fun _ =>
  (validateGap gap).bind fun _ =>
  if ¬(cols.den = 1 ∧ 0 < cols) then
    .error "Invalid cols: must be a positive integer."
  else
    if shapes.length = 0 then .ok []
    else
      (validateShapesG getW getH shapes).bind fun _ =>
      let n : ℕ := cols.num.toNat
      let rowCount : ℕ := (shapes.length + n - 1) / n
      let colWidths : List ℚ :=
        shapes.enum.foldl (fun acc p => bumpMax acc (p.1 % n) (getW p.2))
          (List.replicate n 0)
      let rowHeights : List ℚ :=
        shapes.enum.foldl (fun acc p => bumpMax acc (p.1 / n) (getH p.2))
          (List.replicate rowCount 0)
      let colOffsets : List ℚ := offsetsFrom origin.x gap colWidths
      let rowOffsets : List ℚ := offsetsFrom origin.y gap rowHeights
      .ok (shapes.enum.map fun p =>
        (p.2, ⟨colOffsets.getD (p.1 % n) origin.x,
               rowOffsets.getD (p.1 / n) origin.y⟩))

/-- Specification-side per-column maximum width: the largest width among the
shapes whose index is congruent to `c` modulo `n` (0 when the column holds no
shape). -/
def gridColWidth {α : Type} (getW : α → ℚ) (n : ℕ) (shapes : List α)
    (c : ℕ) : ℚ :=
  ((shapes.enum.filter (fun p => p.1 % n == c)).map (fun p => getW p.2)).foldl
    max 0

/-- Specification-side per-row maximum height. -/
def gridRowHeight {α : Type} (getH : α → ℚ) (n : ℕ) (shapes : List α)
    (r : ℕ) : ℚ :=
  ((shapes.enum.filter (fun p => p.1 / n == r)).map (fun p => getH p.2)).foldl
    max 0

/-- The tldraw size style tiers `s`, `m`, `l`, `xl` (`TLDefaultSizeStyle`). -/
inductive SizeStyle where
  | s
  | m
  | l
  | xl
deriving DecidableEq, Repr

/-- A height/width record, field order as in the sources (`{ h, w }`). -/
structure Dim where
  h : ℚ
  w : ℚ
deriving DecidableEq, Repr

/-- `TEXT_LINE_HEIGHT_BY_SIZE` from `src/store/shapes.ts` / `text.ts` /
`parser.ts` (identical tables). -/
def TEXT_LINE_HEIGHT_BY_SIZE : SizeStyle → ℚ
  | .l => 36
  | .m => 28
  | .s => 22
  | .xl => 44

/-- `NOTE_DIMENSIONS_BY_SIZE` from `src/store/shapes.ts` / `text.ts` /
`parser.ts` (identical tables). -/
def NOTE_DIMENSIONS_BY_SIZE : SizeStyle → Dim
  | .l => ⟨240, 280⟩
  | .m => ⟨180, 220⟩
  | .s => ⟨140, 180⟩
  | .xl => ⟨300, 340⟩

/-- Rich text is modelled as the list of its paragraphs' concatenated plain
texts: `richTextNodeToPlainText` in `src/store/shapes.ts` flattens each
paragraph node tree to exactly that string. -/
def RichText : Type := List String

instance : DecidableEq RichText := by
  unfold RichText
  infer_instance

/-- `richTextToPlainText` from `src/store/shapes.ts`: trim each paragraph's
text, drop empty lines, join with newlines. -/
def richTextToPlainText (rt : RichText) : String :=
  joinStr "\n"
    (((rt : List String).map trimStr).filter (fun line => line ≠ ""))

/-- `toRichText` from the tldraw library (external collaborator): one
paragraph per newline-separated line of the source string. -/
def toRichText (s : String) : RichText :=
  splitStr '\n' s

/-- The per-kind shape properties of a materialized tldraw shape record, as
read by `src/store/shapes.ts` (`geo` carries `w`/`h`/label rich text/size,
`frame` carries `w`/`h`/`name`, `text` carries `w`/rich text/size, `note`
carries rich text/size, `arrow` carries relative `start`/`end` offsets and
label rich text). -/
inductive ShapeProps where
  | geo (isEllipse : Bool) (w h : ℚ) (richText : RichText) (size : SizeStyle)
  | frame (w h : ℚ) (name : String)
  | text (w : ℚ) (richText : RichText) (size : SizeStyle)
  | note (richText : RichText) (size : SizeStyle)
  | arrow (start end' : Point) (richText : RichText)
deriving DecidableEq

/-- A materialized tldraw shape record (the fields of `TLShape` consumed by
this core: id, page position, per-kind props). -/
structure TLShape where
  id : String
  x : ℚ
  y : ℚ
  props : ShapeProps
deriving DecidableEq

/-- `getShapeSize` from `src/store/shapes.ts`. -/
def getShapeSize (shape : TLShape) : Option Dim :=
  match shape.props with
  | .geo _ w h _ _ => some ⟨h, w⟩
  | .frame w h _ => some ⟨h, w⟩
  | .text w rt size =>
    let lineCount : ℕ :=
      max 1 (splitStr '\n' (richTextToPlainText rt)).length
    some ⟨(lineCount : ℚ) * TEXT_LINE_HEIGHT_BY_SIZE size, max 40 w⟩
  | .note _ size => some (NOTE_DIMENSIONS_BY_SIZE size)
  | .arrow st en _ =>
    some ⟨max 1 |en.y - st.y|, max 1 |en.x - st.x|⟩

/-- A shape's axis-aligned bounding box (`{ h, w, x, y }`). -/
structure Bounds where
  h : ℚ
  w : ℚ
  x : ℚ
  y : ℚ
deriving DecidableEq, Repr

/-- `getShapeBounds` from `src/store/shapes.ts`: arrows get the box spanning
their two absolute endpoints; every other kind gets its position plus
`getShapeSize` (the `null`-size fallback of the source is unreachable for
the closed kind set modelled here). -/
def getShapeBounds (shape : TLShape) : Bounds :=
  match shape.props with
  | .arrow st en _ =>
    let startX := shape.x + st.x
    let startY := shape.y + st.y
    let endX := shape.x + en.x
    let endY := shape.y + en.y
    ⟨|endY - startY|, |endX - startX|, min startX endX, min startY endY⟩
  | _ =>
    match getShapeSize shape with
    | none => ⟨0, 0, shape.x, shape.y⟩
    | some size => ⟨size.h, size.w, shape.x, shape.y⟩

/-- `getShapeCenter` from `src/store/shapes.ts`: the bounds midpoint. -/
def getShapeCenter (shape : TLShape) : Point :=
  let bounds := getShapeBounds shape
  ⟨bounds.x + bounds.w / 2, bounds.y + bounds.h / 2⟩

/-- `getShapeLabel` from `src/store/shapes.ts`: a frame's trimmed name, or
the trimmed plain text of the label rich text, `none` when empty. -/
def getShapeLabel (shape : TLShape) : Option String :=
  match shape.props with
  | .frame _ _ name =>
    if trimStr name = "" then none else some (trimStr name)
  | .geo _ _ _ rt _ =>
    let text := trimStr (richTextToPlainText rt)
    if text.length > 0 then some text else none
  | .note rt _ =>
    let text := trimStr (richTextToPlainText rt)
    if text.length > 0 then some text else none
  | .text _ rt _ =>
    let text := trimStr (richTextToPlainText rt)
    if text.length > 0 then some text else none
  | .arrow _ _ rt =>
    let text := trimStr (richTextToPlainText rt)
    if text.length > 0 then some text else none

/-- A vertical connector used to exhibit that `getShapeBounds` does not floor
an arrow's bounds width at 1. -/
def verticalArrow : TLShape :=
  ⟨"shape:a1", 0, 0, .arrow ⟨0, 0⟩ ⟨0, 50⟩ []⟩

/-- The export viewport record of `getExportBounds` in `src/export/svg.ts`
(`{ height, minX, minY, width }`). -/
structure ExportBounds where
  height : ℚ
  minX : ℚ
  minY : ℚ
  width : ℚ
deriving DecidableEq, Repr

/-- `getExportBounds` from `src/export/svg.ts`: the default 200×120 viewport
for an empty shape list, otherwise the union of all shape bounds expanded by
`padding`, width/height rounded up to an integer (`Math.ceil`) and floored at
200×120.  The source seeds its min/max loop with `±Infinity`; over `ℚ` the
loop is seeded with the first shape's bounds, which is equivalent for a
nonempty list, and the `Number.isFinite` re-check is then always true. -/
def getExportBounds (shapes : List TLShape) (padding : ℚ) : ExportBounds :=
  match shapes with
  | [] => ⟨120, -padding, -padding, 200⟩
  | s :: rest =>
    let minX := rest.foldl (fun acc t => min acc (getShapeBounds t).x)
      (getShapeBounds s).x
    let minY := rest.foldl (fun acc t => min acc (getShapeBounds t).y)
      (getShapeBounds s).y
    let maxX := rest.foldl
      (fun acc t => max acc ((getShapeBounds t).x + (getShapeBounds t).w))
      ((getShapeBounds s).x + (getShapeBounds s).w)
    let maxY := rest.foldl
      (fun acc t => max acc ((getShapeBounds t).y + (getShapeBounds t).h))
      ((getShapeBounds s).y + (getShapeBounds s).h)
    ⟨max 120 ((⌈maxY - minY + padding * 2⌉ : ℤ) : ℚ),
     minX - padding, minY - padding,
     max 200 ((⌈maxX - minX + padding * 2⌉ : ℤ) : ℚ)⟩

/-- A concrete rectangle used to instantiate viewport and geometry facts. -/
def sampleRect : TLShape :=
  ⟨"shape:r1", 10, 20, .geo false 220 120 ["Box"] .m⟩

/-- The character loop of `stripInlineComment` in `src/dsl/parser.ts`,
carrying the `inQuotes` and `escaped` flags: an unescaped `"` toggles
`inQuotes`, a `#` seen while outside quotes truncates the rest of the line,
and `escaped` records whether the current character is an unescaped
backslash. -/
def stripInlineCommentGo : Bool → Bool → List Char → List Char
  | _, _, [] => []
  | inQuotes, escaped, c :: rest =>
    let inQuotes' := if c = '"' ∧ ¬escaped then !inQuotes else inQuotes
    if c = '#' ∧ inQuotes' = false then []
    else
      c :: stripInlineCommentGo inQuotes' (decide (c = '\\' ∧ ¬escaped)) rest

/-- `stripInlineComment` from `src/dsl/parser.ts`. -/
def stripInlineComment (line : String) : String :=
  ⟨stripInlineCommentGo false false line.data⟩

/-- `Token` from `src/dsl/parser.ts`. -/
structure Token where
  quoted : Bool
  value : String
deriving DecidableEq, Repr

/-- `pushCurrent` from `tokenize`: emit the accumulated characters as one
token when nonempty. -/
def pushCurrent (tokenIsQuoted : Bool) (current : List Char) : List Token :=
  if current.length > 0 then [⟨tokenIsQuoted, ⟨current⟩⟩] else []

/-- The character loop of `tokenize` in `src/dsl/parser.ts`.  State mirrors
the source exactly: accumulated `tokens`, the `inQuotes`/`escaped` flags, the
pending token's `tokenIsQuoted` flag and its accumulated characters.  When
`pushCurrent` pushes nothing (empty accumulator), `tokenIsQuoted` is left
unchanged, as in the source. -/
def tokenizeGo (context : String) :
    List Char → List Token → Bool → Bool → Bool → List Char →
      Except String (List Token)
  | [], tokens, inQuotes, _escaped, tokenIsQuoted, current =>
    if inQuotes then .error ("Unterminated quote in " ++ context)
    else .ok (tokens ++ pushCurrent tokenIsQuoted current)
  | c :: rest, tokens, inQuotes, escaped, tokenIsQuoted, current =>
    if c = '"' ∧ ¬escaped then
      tokenizeGo context rest tokens (!inQuotes) escaped true current
    else if ¬inQuotes ∧ isWhitespaceChar c then
      if current.length > 0 then
        tokenizeGo context rest (tokens ++ [⟨tokenIsQuoted, ⟨current⟩⟩])
          inQuotes false false []
      else
        tokenizeGo context rest tokens inQuotes false tokenIsQuoted []
    else if c = '\\' ∧ inQuotes ∧ ¬escaped then
      tokenizeGo context rest tokens inQuotes true tokenIsQuoted current
    else
      tokenizeGo context rest tokens inQuotes false tokenIsQuoted
        (current ++ [c])

/-- `tokenize` from `src/dsl/parser.ts`. -/
def tokenize (line : String) (context : String) : Except String (List Token) :=
  tokenizeGo context line.data [] false false false []

/-- Skip JavaScript `\s*`. -/
def skipWs (l : List Char) : List Char :=
  l.dropWhile (fun c => isWhitespaceChar c)

/-- Match the regex fragment `\d+(\.\d+)?` at the front of the input and
return the rest; the patterns using it never follow it with a digit or a
dot, so maximal munch is equivalent to the regex semantics. -/
def matchNum (l : List Char) : Option (List Char) :=
  let ds := l.takeWhile Char.isDigit
  let rest := l.dropWhile Char.isDigit
  if ds.isEmpty then none
  else
    match rest with
    | '.' :: rest2 =>
      let ds2 := rest2.takeWhile Char.isDigit
      let rest3 := rest2.dropWhile Char.isDigit
      if ds2.isEmpty then none else some rest3
    | _ => some rest

/-- Match `-?\d+(\.\d+)?`. -/
def matchSignedNum (l : List Char) : Option (List Char) :=
  match l with
  | '-' :: rest => matchNum rest
  | _ => matchNum l

/-- `POSITION_TOKEN_PATTERN` from `src/dsl/parser.ts`:
`/^\s*-?\d+(\.\d+)?\s*,\s*-?\d+(\.\d+)?\s*$/`. -/
def isPositionToken (value : String) : Bool :=
  match matchSignedNum (skipWs value.data) with
  | none => false
  | some r1 =>
    match skipWs r1 with
    | ',' :: r2 =>
      match matchSignedNum (skipWs r2) with
      | none => false
      | some r3 => (skipWs r3).isEmpty
    | _ => false

/-- `DIMENSION_TOKEN_PATTERN` from `src/dsl/parser.ts`:
`/^\s*\d+(\.\d+)?x\d+(\.\d+)?\s*$/i` (the `i` flag makes the `x` match `X`
as well). -/
def isDimensionToken (value : String) : Bool :=
  match matchNum (skipWs value.data) with
  | none => false
  | some r1 =>
    match r1 with
    | c :: r2 =>
      if c = 'x' ∨ c = 'X' then
        match matchNum r2 with
        | none => false
        | some r3 => (skipWs r3).isEmpty
      else false
    | [] => false

/-- `isKeyValueToken` from `src/dsl/parser.ts`: the value contains `=`. -/
def isKeyValueToken (value : String) : Bool :=
  value.data.contains '='

/-- `AddShapeCommandOptions` from `src/commands/add.ts` (the `from` field is
spelled `from_` and the `to` field `to_` because both are reserved words in Lean). -/
structure AddShapeCommandOptions where
  color : Option String := none
  dash : Option String := none
  dimensions : Option String := none
  fill : Option String := none
  font : Option String := none
  from_ : Option String := none
  id : Option String := none
  label : Option String := none
  pos : Option String := none
  size : Option String := none
  to_ : Option String := none
deriving DecidableEq, Repr

/-- JavaScript truthiness of an optional string: present and nonempty. -/
def truthyOpt (o : Option String) : Bool :=
  match o with
  | none => false
  | some s => s ≠ ""

/-- `parseKeyValue` from `src/dsl/parser.ts`: split on the first `=` (which
must not be at index 0 or absent), trim both sides, and reject an empty
value. -/
def parseKeyValue (token : Token) (context : String) :
    Except String (String × String) :=
  let l := token.value.data
  let key := l.takeWhile (fun c => c ≠ '=')
  if key.length = 0 ∨ key.length = l.length then
    .error ("Expected key=value token in " ++ context ++ ": \"" ++
      token.value ++ "\"")
  else
    let keyS := trimStr ⟨key⟩
    let valueS := trimStr ⟨l.drop (key.length + 1)⟩
    if valueS.length = 0 then
      .error ("Missing value for \"" ++ keyS ++ "\" in " ++ context)
    else
      .ok (keyS, valueS)

/-- `parseOptionToken` from `src/dsl/parser.ts`, returning the updated
options record instead of mutating it. -/
def parseOptionToken (token : Token) (options : AddShapeCommandOptions)
    (context : String) (allowPosition : Bool) :
    Except String AddShapeCommandOptions :=
  (parseKeyValue token context).bind fun kv =>
    let key := kv.1
    let value := kv.2
    if key = "color" then .ok { options with color := some value }
    else if key = "dash" then .ok { options with dash := some value }
    else if key = "dimensions" then .ok { options with dimensions := some value }
    else if key = "fill" then .ok { options with fill := some value }
    else if key = "font" then .ok { options with font := some value }
    else if key = "from" then .ok { options with from_ := some value }
    else if key = "id" then .ok { options with id := some value }
    else if key = "label" then .ok { options with label := some value }
    else if key = "pos" then
      if allowPosition then .ok { options with pos := some value }
      else .error ("Position is not allowed in this context: " ++ context)
    else if key = "size" then .ok { options with size := some value }
    else if key = "to" then .ok { options with to_ := some value }
    else .error ("Unsupported option \"" ++ key ++ "\" in " ++ context)

/-- `DrawShape` from `src/dsl/parser.ts` (`DRAW_SHAPES`). -/
inductive DrawShape where
  | arrow
  | ellipse
  | frame
  | note
  | rect
  | text
deriving DecidableEq, Repr

/-- `isDrawShape` from `src/dsl/parser.ts`, returning the recognized kind. -/
def parseDrawShape : String → Option DrawShape
  | "arrow" => some .arrow
  | "ellipse" => some .ellipse
  | "frame" => some .frame
  | "note" => some .note
  | "rect" => some .rect
  | "text" => some .text
  | _ => none

/-- `DrawInstruction` from `src/dsl/parser.ts`. -/
structure DrawInstruction where
  content : Option String := none
  options : AddShapeCommandOptions := {}
  shape : DrawShape
deriving DecidableEq, Repr

/-- The trailing option loop shared by `parseBasicShapeInstruction` and
`parseArrowInstruction`: every remaining token must be key=value shaped and
carry a recognized key. -/
def parseOptionsLoop (context : String) (allowPosition : Bool) :
    List Token → AddShapeCommandOptions → Except String AddShapeCommandOptions
  | [], options => .ok options
  | t :: rest, options =>
    if isKeyValueToken t.value = false then
      .error ("Unexpected token in " ++ context ++ ": \"" ++ t.value ++ "\"")
    else
      (parseOptionToken t options context allowPosition).bind fun o =>
        parseOptionsLoop context allowPosition rest o

/-- `parseBasicShapeInstruction` from `src/dsl/parser.ts`: positional slots
in order (kind, then an `x,y` token, then a `WxH` token, then a non-key=value
content token), followed by key=value options only, then the content/label
merge-or-conflict rule (with JavaScript truthiness for the emptiness
checks). -/
def parseBasicShapeInstruction (tokens : List Token) (context : String)
    (allowPosition : Bool) : Except String DrawInstruction :=
  match tokens with
  | [] => .error ("Unsupported shape in " ++ context ++ ": \"\"")
  | t0 :: rest0 =>
    match parseDrawShape t0.value with
    | none =>
      .error ("Unsupported shape in " ++ context ++ ": \"" ++ t0.value ++ "\"")
    | some .arrow =>
      .error ("Unsupported shape in " ++ context ++ ": \"" ++ t0.value ++ "\"")
    | some shape =>
      let posStep : Except String (AddShapeCommandOptions × List Token) :=
        match rest0 with
        | t :: r =>
          if isPositionToken t.value then
            if allowPosition then .ok ({ pos := some t.value }, r)
            else .error ("Position is not allowed in " ++ context)
          else .ok ({}, t :: r)
        | [] => .ok ({}, [])
      posStep.bind fun step1 =>
        let opts1 := step1.1
        let rest1 := step1.2
        let step2 : AddShapeCommandOptions × List Token :=
          match rest1 with
          | t :: r =>
            if isDimensionToken t.value then
              ({ opts1 with size := some t.value }, r)
            else (opts1, t :: r)
          | [] => (opts1, [])
        let opts2 := step2.1
        let rest2 := step2.2
        let step3 : Option String × List Token :=
          match rest2 with
          | t :: r =>
            if isKeyValueToken t.value = false then (some t.value, r)
            else (none, t :: r)
          | [] => (none, [])
        let content := step3.1
        let rest3 := step3.2
        (parseOptionsLoop context allowPosition rest3 opts2).bind fun opts3 =>
          if shape = .text ∨ shape = .note then
            if truthyOpt content ∧ truthyOpt opts3.label ∧
                opts3.label ≠ content then
              .error ("Text content was provided twice in " ++ context)
            else
              let textContent := content.or opts3.label
              let contentOptions := { opts3 with label := none }
              if truthyOpt textContent then
                .ok ⟨textContent, contentOptions, shape⟩
              else
                .ok ⟨none, contentOptions, shape⟩
          else
            if truthyOpt content then
              if truthyOpt opts3.label ∧ opts3.label ≠ content then
                .error ("Label was provided twice in " ++ context)
              else
                .ok ⟨none, { opts3 with label := content }, shape⟩
            else
              .ok ⟨none, opts3, shape⟩

/-- `parseArrowInstruction` from `src/dsl/parser.ts`. -/
def parseArrowInstruction (tokens : List Token) (context : String) :
    Except String DrawInstruction :=
  let ci? := tokens.findIdx? (fun t => t.value == "->")
  match ci? with
  | none =>
    .error ("Invalid arrow syntax in " ++ context ++
      "; expected: arrow <from> -> <to>")
  | some ci =>
    if ci ≤ 1 ∨ ci ≥ tokens.length - 1 then
      .error ("Invalid arrow syntax in " ++ context ++
        "; expected: arrow <from> -> <to>")
    else
      let fromS := trimStr (joinStr " "
        (((tokens.drop 1).take (ci - 1)).map Token.value))
      let trailing := tokens.drop (ci + 1)
      let osi? := trailing.findIdx? (fun t => isKeyValueToken t.value)
      let toTokens :=
        match osi? with
        | none => trailing
        | some k => trailing.take k
      let toS := trimStr (joinStr " " (toTokens.map Token.value))
      if fromS = "" ∨ toS = "" then
        .error ("Invalid arrow endpoints in " ++ context)
      else
        let options : AddShapeCommandOptions :=
          { from_ := some fromS, to_ := some toS }
        let optionTokens :=
          match osi? with
          | none => []
          | some k => trailing.drop k
        (parseOptionsLoop context true optionTokens options).bind fun opts =>
          .ok ⟨none, opts, .arrow⟩

/-- `parseLineInstruction` from `src/dsl/parser.ts`. -/
def parseLineInstruction (line : String) (context : String)
    (allowPosition : Bool) : Except String DrawInstruction :=
  (tokenize line context).bind fun tokens =>
    match tokens with
    | [] => .error ("Expected a shape instruction in " ++ context)
    | t0 :: _ =>
      if t0.value = "arrow" then parseArrowInstruction tokens context
      else parseBasicShapeInstruction tokens context allowPosition

/-- Digits to a natural number. -/
def digitsToNat (l : List Char) : ℕ :=
  l.foldl (fun acc c => acc * 10 + (c.toNat - '0'.toNat)) 0

/-- JavaScript `Number(string)` on the decimal-literal subset: optional
whitespace, empty string is 0, optional sign, digits with optional fraction
and optional exponent.  Hexadecimal/binary/`Infinity` literals are outside
the model — every numeric string reaching this function in the sources is
regex-validated or user-typed plain decimal, and a non-decimal string is
`NaN` (`none`) here just as it fails `Number.isFinite` there. -/
def jsNumber (s : String) : Option ℚ :=
  let l := trimChars s.data
  if l.isEmpty then some 0
  else
    let signAndRest : ℚ × List Char :=
      match l with
      | '-' :: r => (-1, r)
      | '+' :: r => (1, r)
      | _ => (1, l)
    let sign := signAndRest.1
    let l1 := signAndRest.2
    let ds := l1.takeWhile Char.isDigit
    let r1 := l1.dropWhile Char.isDigit
    let fracAndRest : List Char × List Char :=
      match r1 with
      | '.' :: rr => (rr.takeWhile Char.isDigit, rr.dropWhile Char.isDigit)
      | _ => ([], r1)
    let frac := fracAndRest.1
    let r2 := fracAndRest.2
    if ds.isEmpty ∧ frac.isEmpty then none
    else
      let mantissa : ℚ :=
        (digitsToNat ds : ℚ) + (digitsToNat frac : ℚ) / (10 : ℚ) ^ frac.length
      match r2 with
      | [] => some (sign * mantissa)
      | e :: r3 =>
        if e = 'e' ∨ e = 'E' then
          let expSignAndRest : Bool × List Char :=
            match r3 with
            | '-' :: r4 => (true, r4)
            | '+' :: r4 => (false, r4)
            | _ => (false, r3)
          let eds := expSignAndRest.2.takeWhile Char.isDigit
          let r5 := expSignAndRest.2.dropWhile Char.isDigit
          if eds.isEmpty ∨ ¬r5.isEmpty then none
          else
            let expVal : ℤ :=
              if expSignAndRest.1 then -(digitsToNat eds : ℤ)
              else (digitsToNat eds : ℤ)
            some (sign * mantissa * (10 : ℚ) ^ expVal)
        else none

/-- `parseNumber` from `src/commands/parsers.ts`: `Number(value)` guarded by
`Number.isFinite`. -/
def parseNumber (value : String) (label : String) : Except String ℚ :=
  match jsNumber value with
  | some q => .ok q
  | none => .error ("Invalid " ++ label ++ ": \"" ++ value ++ "\"")

/-- `parsePosition` from `src/commands/parsers.ts`. -/
def parsePosition (value : String) : Except String Point :=
  match splitStr ',' value with
  | [xText, yText] =>
    if xText = "" ∨ yText = "" then
      .error ("Invalid --pos \"" ++ value ++ "\". Expected format: x,y")
    else
      (parseNumber (trimStr xText) "x position").bind fun x =>
        (parseNumber (trimStr yText) "y position").map fun y => ⟨x, y⟩
  | _ => .error ("Invalid --pos \"" ++ value ++ "\". Expected format: x,y")

/-- Lower-case an ASCII character (JavaScript `toLowerCase` restricted to
ASCII, which is all the sources feed it). -/
def lowerChar (c : Char) : Char :=
  if 'A' ≤ c ∧ c ≤ 'Z' then Char.ofNat (c.toNat + 32) else c

/-- JavaScript `toLowerCase` on a string. -/
def lowerStr (s : String) : String :=
  ⟨s.data.map lowerChar⟩

/-- `parseSize` from `src/commands/parsers.ts`: lower-case, split on `x`,
parse both parts, require both positive. -/
def parseSize (value : String) : Except String Dim :=
  match splitStr 'x' (lowerStr value) with
  | [wText, hText] =>
    if wText = "" ∨ hText = "" then
      .error ("Invalid --size \"" ++ value ++ "\". Expected format: WxH")
    else
      (parseNumber (trimStr wText) "width").bind fun w =>
        (parseNumber (trimStr hText) "height").bind fun h =>
          if w ≤ 0 ∨ h ≤ 0 then
            .error ("Invalid --size \"" ++ value ++
              "\". Width and height must be positive.")
          else .ok ⟨h, w⟩
  | _ => .error ("Invalid --size \"" ++ value ++ "\". Expected format: WxH")

/-- Case-insensitive literal match (the `/i` flag of the header regexes):
consume `kw` (given lower-case) from the front of `l`. -/
def matchKeyword : List Char → List Char → Option (List Char)
  | [], l => some l
  | _ :: _, [] => none
  | k :: ks, c :: cs => if lowerChar c = k then matchKeyword ks cs else none

/-- Regex `\s+` at the front of the input. -/
def matchWs1 (l : List Char) : Option (List Char) :=
  match l with
  | c :: cs => if isWhitespaceChar c then some (skipWs cs) else none
  | [] => none

/-- Regex `(\S+)` at the front of the input: the captured text and the
rest. -/
def matchNonWs1 (l : List Char) : Option (List Char × List Char) :=
  let tk := l.takeWhile (fun c => !isWhitespaceChar c)
  if tk.isEmpty then none else some (tk, l.dropWhile (fun c => !isWhitespaceChar c))

/-- Regex `([0-9]+(?:\.[0-9]+)?)` at the front of the input: the captured
text and the rest. -/
def matchDecimal (l : List Char) : Option (List Char × List Char) :=
  let ds := l.takeWhile Char.isDigit
  let r := l.dropWhile Char.isDigit
  if ds.isEmpty then none
  else
    match r with
    | '.' :: rr =>
      let ds2 := rr.takeWhile Char.isDigit
      let r2 := rr.dropWhile Char.isDigit
      if ds2.isEmpty then none else some (ds ++ '.' :: ds2, r2)
    | _ => some (ds, r)

/-- Regex `(vertical|horizontal)` case-insensitively: captured original text
and the rest. -/
def matchDirectionWord (l : List Char) : Option (List Char × List Char) :=
  match matchKeyword "vertical".data l with
  | some r => some (l.take 8, r)
  | none =>
    match matchKeyword "horizontal".data l with
    | some r => some (l.take 10, r)
    | none => none

/-- `STACK_HEADER_PATTERN` from `src/dsl/parser.ts`:
`/^stack\s+(vertical|horizontal)\s+(\S+)\s+gap=([0-9]+(?:\.[0-9]+)?)\s*\[$/i`,
returning the three captured groups. -/
def matchStackHeader (line : String) : Option (String × String × String) :=
  (matchKeyword "stack".data line.data).bind fun r1 =>
  (matchWs1 r1).bind fun r2 =>
  (matchDirectionWord r2).bind fun dr =>
  (matchWs1 dr.2).bind fun r3 =>
  (matchNonWs1 r3).bind fun og =>
  (matchWs1 og.2).bind fun r4 =>
  (matchKeyword "gap=".data r4).bind fun r5 =>
  (matchDecimal r5).bind fun gp =>
  match skipWs gp.2 with
  | ['['] => some (⟨dr.1⟩, ⟨og.1⟩, ⟨gp.1⟩)
  | _ => none

/-- `GRID_HEADER_PATTERN` from `src/dsl/parser.ts`:
`/^grid\s+(\S+)\s+cols=(\d+)\s+gap=([0-9]+(?:\.[0-9]+)?)\s*\[$/i`. -/
def matchGridHeader (line : String) : Option (String × String × String) :=
  (matchKeyword "grid".data line.data).bind fun r1 =>
  (matchWs1 r1).bind fun r2 =>
  (matchNonWs1 r2).bind fun og =>
  (matchWs1 og.2).bind fun r3 =>
  (matchKeyword "cols=".data r3).bind fun r4 =>
  (let ds := r4.takeWhile Char.isDigit
   if ds.isEmpty then none
   else some (ds, r4.dropWhile Char.isDigit)).bind fun cl =>
  (matchWs1 cl.2).bind fun r5 =>
  (matchKeyword "gap=".data r5).bind fun r6 =>
  (matchDecimal r6).bind fun gp =>
  match skipWs gp.2 with
  | ['['] => some (⟨og.1⟩, ⟨cl.1⟩, ⟨gp.1⟩)
  | _ => none

/-- `parseStackHeader` from `src/dsl/parser.ts`. -/
def parseStackHeader (line : String) (context : String) :
    Except String (LayoutDirection × ℚ × Point) :=
  match matchStackHeader line with
  | none => .error ("Invalid stack syntax in " ++ context)
  | some (directionText, originText, gapText) =>
    let direction : LayoutDirection :=
      if lowerStr directionText = "vertical" then .vertical else .horizontal
    (parsePosition originText).bind fun origin =>
      match jsNumber gapText with
      | none => .error ("Invalid stack gap in " ++ context)
      | some gap =>
        if gap < 0 then .error ("Invalid stack gap in " ++ context)
        else .ok (direction, gap, origin)

/-- `parseGridHeader` from `src/dsl/parser.ts`. -/
def parseGridHeader (line : String) (context : String) :
    Except String (ℚ × ℚ × Point) :=
  match matchGridHeader line with
  | none => .error ("Invalid grid syntax in " ++ context)
  | some (originText, colsText, gapText) =>
    (parsePosition originText).bind fun origin =>
      match jsNumber colsText with
      | none => .error ("Invalid grid cols in " ++ context)
      | some cols =>
        if ¬(cols.den = 1 ∧ 0 < cols) then
          .error ("Invalid grid cols in " ++ context)
        else
          match jsNumber gapText with
          | none => .error ("Invalid grid gap in " ++ context)
          | some gap =>
            if gap < 0 then .error ("Invalid grid gap in " ++ context)
            else .ok (cols, gap, origin)

/-- Parse a size-tier string (`s`, `m`, `l`, `xl`) — the `key in table`
checks of the sources. -/
def parseSizeTier : String → Option SizeStyle
  | "s" => some .s
  | "m" => some .m
  | "l" => some .l
  | "xl" => some .xl
  | _ => none

/-- `DEFAULT_DIMENSIONS` from `src/dsl/parser.ts` (the arrow entry is
unreachable: callers reject arrows first). -/
def DEFAULT_DIMENSIONS : DrawShape → Dim
  | .ellipse => ⟨120, 120⟩
  | .frame => ⟨260, 460⟩
  | .note => ⟨180, 220⟩
  | .rect => ⟨120, 220⟩
  | .text => ⟨40, 280⟩
  | .arrow => ⟨0, 0⟩

/-- `resolveInstructionDimensions` from `src/dsl/parser.ts`: precedence is
explicit `dimensions=`, then `size=` when it is a `WxH` pattern, then the
note named-size table, then for text line-height × line count with the
default text width, then the per-kind default box.  The `if (option)` checks
use JavaScript truthiness. -/
def resolveInstructionDimensions (instruction : DrawInstruction) :
    Except String Dim :=
  if instruction.shape = .arrow then
    .error "Arrow instructions are not supported in stack/grid blocks"
  else if truthyOpt instruction.options.dimensions then
    parseSize (instruction.options.dimensions.getD "")
  else if truthyOpt instruction.options.size ∧
      isDimensionToken (instruction.options.size.getD "") then
    parseSize (instruction.options.size.getD "")
  else if instruction.shape = .note ∧ truthyOpt instruction.options.size ∧
      (parseSizeTier (instruction.options.size.getD "")).isSome then
    .ok (NOTE_DIMENSIONS_BY_SIZE
      ((parseSizeTier (instruction.options.size.getD "")).getD .m))
  else if instruction.shape = .text then
    let textSize : SizeStyle :=
      if truthyOpt instruction.options.size ∧
          (parseSizeTier (instruction.options.size.getD "")).isSome then
        (parseSizeTier (instruction.options.size.getD "")).getD .m
      else .m
    let lineHeight := TEXT_LINE_HEIGHT_BY_SIZE textSize
    let text := instruction.content.getD ""
    let lineCount : ℕ := max 1 (splitStr '\n' text).length
    .ok ⟨lineHeight * (lineCount : ℚ), (DEFAULT_DIMENSIONS .text).w⟩
  else
    .ok (DEFAULT_DIMENSIONS instruction.shape)

/-- An integer rendered the way JavaScript template strings render it. -/
def intToString (i : ℤ) : String :=
  if i < 0 then "-" ++ Nat.repr i.natAbs else Nat.repr i.natAbs

/-- `${q}` for the rational coordinates the layout produces.  Faithful to
JavaScript for integral values (the only values the verified examples
produce); a non-integral rational is rendered `num/den` where JavaScript
would print a decimal expansion. -/
def qToString (q : ℚ) : String :=
  if q.den = 1 then intToString q.num
  else intToString q.num ++ "/" ++ Nat.repr q.den

/-- JavaScript `String.prototype.startsWith`. -/
def startsWithStr (s pre : String) : Bool :=
  decide (s.data.take pre.data.length = pre.data)

/-- A sized nested instruction: the parser pairs each nested instruction
with its resolved dimensions before calling the layout engine
(`{ ...dimensions, instruction }`). -/
structure SizedInstruction where
  w : ℚ
  h : ℚ
  instruction : DrawInstruction
deriving DecidableEq

/-- Resolve dimensions for every nested instruction in order (the
`nested.map` preceding the layout call; the first failure aborts). -/
def sizeNested : List DrawInstruction → Except String (List SizedInstruction)
  | [] => .ok []
  | ins :: rest =>
    (resolveInstructionDimensions ins).bind fun d =>
      (sizeNested rest).map fun tail => ⟨d.w, d.h, ins⟩ :: tail

/-- Substitute a computed absolute position into an instruction's options:
`pos: `${entry.x},${entry.y}``. -/
def withPos (entry : SizedInstruction × Point) : DrawInstruction :=
  { entry.1.instruction with
    options := { entry.1.instruction.options with
      pos := some (qToString entry.2.x ++ "," ++ qToString entry.2.y) } }

/-- The nested-line collection loop shared by `parseStackBlock` and
`parseGridBlock` in `src/dsl/parser.ts`: skip empty and comment-only lines,
stop at a line that is exactly `]`, reject nested block headers and arrow
instructions, and parse everything else as a position-less instruction.
`remaining` is the list of lines after the header, `lineNo` the 0-based
absolute index of its first line, `blockKind` the word used in the arrow
error ("stack" or "grid"), `blockCtx` the header's context for the
unterminated error.  Returns the nested instructions and the offset of the
closing `]` within `remaining`. -/
def collectNested (blockKind : String) (blockCtx : String) :
    List String → ℕ → Except String (List DrawInstruction × ℕ)
  | [], _ =>
    .error ("Unterminated " ++ blockKind ++ " block starting at " ++ blockCtx)
  | rawLine :: rest, lineNo =>
    let next := collectNested blockKind blockCtx rest (lineNo + 1)
    if rawLine = "" then next.map fun r => (r.1, r.2 + 1)
    else
      let line := trimStr (stripInlineComment rawLine)
      if line = "" then next.map fun r => (r.1, r.2 + 1)
      else if line = "]" then .ok ([], 0)
      else if startsWithStr line "stack " || startsWithStr line "grid " then
        .error ("Nested layout blocks are not supported (line " ++
          Nat.repr (lineNo + 1) ++ ")")
      else
        (parseLineInstruction line ("line " ++ Nat.repr (lineNo + 1))
            false).bind fun parsed =>
          if parsed.shape = .arrow then
            .error ("Arrow instructions are not supported in " ++ blockKind ++
              " blocks (line " ++ Nat.repr (lineNo + 1) ++ ")")
          else
            next.map fun r => (parsed :: r.1, r.2 + 1)

/-- `parseStackBlock` from `src/dsl/parser.ts`: parse the header, collect the
nested instructions, resolve their dimensions, run the stack layout and
substitute the computed positions.  Returns the instructions and the offset
of the closing `]` after the header line. -/
def parseStackBlock (lines : List String) (startIndex : ℕ)
    (headerLine : String) : Except String (List DrawInstruction × ℕ) :=
  let context := "line " ++ Nat.repr (startIndex + 1)
  (parseStackHeader headerLine context).bind fun header =>
    (collectNested "stack" context (lines.drop (startIndex + 1))
        (startIndex + 1)).bind fun collected =>
      (sizeNested collected.1).bind fun sized =>
        (stackShapes SizedInstruction.w SizedInstruction.h sized header.1
            header.2.2 header.2.1).map fun positioned =>
          (positioned.map withPos, collected.2)

/-- `parseGridBlock` from `src/dsl/parser.ts`. -/
def parseGridBlock (lines : List String) (startIndex : ℕ)
    (headerLine : String) : Except String (List DrawInstruction × ℕ) :=
  let context := "line " ++ Nat.repr (startIndex + 1)
  (parseGridHeader headerLine context).bind fun header =>
    (collectNested "grid" context (lines.drop (startIndex + 1))
        (startIndex + 1)).bind fun collected =>
      (sizeNested collected.1).bind fun sized =>
        (gridShapes SizedInstruction.w SizedInstruction.h sized header.2.2
            header.1 header.2.1).map fun positioned =>
          (positioned.map withPos, collected.2)

/-- Strip one trailing carriage return (the `\r?` of the line split). -/
def stripCr (s : String) : String :=
  if s.data.getLast? = some '\r' then ⟨s.data.dropLast⟩ else s

/-- `input.split(/\r?\n/)`. -/
def splitLines (input : String) : List String :=
  (splitStr '\n' input).map stripCr

/-- The line loop of `parseDsl` from `src/dsl/parser.ts`.  A block consumes
the lines up to its closing `]` (offset `k` after the header), so the loop
resumes at `index + k + 2`.  The loop advances `index` by at least one per
step and stops once `index` reaches the line count, so the structural fuel
(`lines.length + 1` at the top-level call) can never run out; the fuel-zero
branch is unreachable. -/
def parseDslGo (lines : List String) :
    ℕ → ℕ → Except String (List DrawInstruction)
  | 0, _ => .ok []
  | fuel + 1, index =>
    if lines.length ≤ index then .ok []
    else
      let rawLine := lines.getD index ""
      if rawLine = "" then parseDslGo lines fuel (index + 1)
      else
        let line := trimStr (stripInlineComment rawLine)
        if line = "" then parseDslGo lines fuel (index + 1)
        else if startsWithStr line "stack " then
          match parseStackBlock lines index line with
          | .error e => .error e
          | .ok res =>
            match parseDslGo lines fuel (index + res.2 + 2) with
            | .error e => .error e
            | .ok tail => .ok (res.1 ++ tail)
        else if startsWithStr line "grid " then
          match parseGridBlock lines index line with
          | .error e => .error e
          | .ok res =>
            match parseDslGo lines fuel (index + res.2 + 2) with
            | .error e => .error e
            | .ok tail => .ok (res.1 ++ tail)
        else
          match parseLineInstruction line ("line " ++ Nat.repr (index + 1))
              true with
          | .error e => .error e
          | .ok ins =>
            match parseDslGo lines fuel (index + 1) with
            | .error e => .error e
            | .ok tail => .ok (ins :: tail)

/-- `parseDsl` from `src/dsl/parser.ts`. -/
def parseDsl (input : String) : Except String (List DrawInstruction) :=
  parseDslGo (splitLines input) ((splitLines input).length + 1) 0

/-- `parsePositionOrNull` from `src/commands/parsers.ts`. -/
def parsePositionOrNull (value : String) : Option Point :=
  match parsePosition value with
  | .ok p => some p
  | .error _ => none

/-- `resolveArrowTarget` from `src/commands/add.ts`: a literal coordinate,
else the center of the first shape with matching id, else the center of the
first shape with matching label, else a resolution error naming the
target. -/
def resolveArrowTarget (target : String) (shapes : List TLShape) :
    Except String (Point × Option TLShape) :=
  match parsePositionOrNull target with
  | some p => .ok (p, none)
  | none =>
    match shapes.find? (fun s => s.id == target) with
    | some s => .ok (getShapeCenter s, some s)
    | none =>
      match shapes.find? (fun s => getShapeLabel s == some target) with
      | some s => .ok (getShapeCenter s, some s)
      | none =>
        .error ("Unable to resolve arrow target \"" ++ target ++
          "\" to a coordinate or shape")

/-- The tldraw font families (`TLDefaultFontStyle`). -/
inductive FontStyle where
  | draw
  | mono
  | sans
  | serif
deriving DecidableEq, Repr

/-- Parse a font-family string (the `font in AVG_CHAR_WIDTHS` check). -/
def parseFontTier : String → Option FontStyle
  | "draw" => some .draw
  | "mono" => some .mono
  | "sans" => some .sans
  | "serif" => some .serif
  | _ => none

/-- `AVG_CHAR_WIDTHS` from `src/store/text.ts`. -/
def AVG_CHAR_WIDTHS : FontStyle → SizeStyle → ℚ
  | .draw, .l => 14
  | .draw, .m => 11
  | .draw, .s => 8
  | .draw, .xl => 18
  | .mono, .l => 13
  | .mono, .m => 10
  | .mono, .s => 7.5
  | .mono, .xl => 16
  | .sans, .l => 12
  | .sans, .m => 9.5
  | .sans, .s => 7
  | .sans, .xl => 15
  | .serif, .l => 12
  | .serif, .m => 9.5
  | .serif, .s => 7
  | .serif, .xl => 15

/-- The size tier rendered back to its option string. -/
def sizeTierToString : SizeStyle → String
  | .s => "s"
  | .m => "m"
  | .l => "l"
  | .xl => "xl"

/-- `estimateLabelDimensions` from `src/store/text.ts`: width is the longest
line's character count times the per-font/per-size average character width,
rounded up, plus 40px horizontal padding; height is line count times line
height plus 36px vertical padding.  Unknown or omitted size/font fall back
to `m`/`draw` (JavaScript truthiness on the optional strings). -/
def estimateLabelDimensions (label : String) (size font : Option String) :
    Dim :=
  let resolvedSize : SizeStyle :=
    match size with
    | some s =>
      if ¬(s = "") ∧ (parseSizeTier s).isSome then (parseSizeTier s).getD .m
      else .m
    | none => .m
  let resolvedFont : FontStyle :=
    match font with
    | some f =>
      if ¬(f = "") ∧ (parseFontTier f).isSome then (parseFontTier f).getD .draw
      else .draw
    | none => .draw
  let charWidth := AVG_CHAR_WIDTHS resolvedFont resolvedSize
  let lineHeight := TEXT_LINE_HEIGHT_BY_SIZE resolvedSize
  let lines := splitStr '\n' label
  let longest : ℕ := (lines.map (fun line => line.data.length)).foldl max 0
  let lineCount : ℕ := max 1 lines.length
  ⟨(lineCount : ℚ) * lineHeight + 36,
   ((⌈(longest : ℚ) * charWidth⌉ : ℤ) : ℚ) + 40⟩

/-- `parseShapeSize` from `src/commands/parsers.ts`: validate against the
size-tier enumeration `s, m, l, xl`. -/
def parseShapeSize (value : String) : Except String SizeStyle :=
  match parseSizeTier value with
  | some t => .ok t
  | none =>
    .error ("Invalid size: \"" ++ value ++ "\". Allowed: s, m, l, xl")

/-- `DEFAULT_DIMENSIONS_BY_SHAPE` from `src/commands/add.ts` (note shapes
have no entry: their size comes from the size style). -/
def DEFAULT_DIMENSIONS_BY_SHAPE : DrawShape → Dim
  | .ellipse => ⟨120, 120⟩
  | .frame => ⟨260, 460⟩
  | .rect => ⟨120, 220⟩
  | .text => ⟨40, 280⟩
  | _ => ⟨0, 0⟩

/-- `resolveSizeOptions` from `src/commands/add.ts`: `dimensions=` parses as
`WxH`; a `size=` value that is a `WxH` pattern overwrites it, a non-`WxH`
value containing an `x` is an error, anything else must be a size tier. -/
def resolveSizeOptions (options : AddShapeCommandOptions) :
    Except String (Option Dim × Option SizeStyle) :=
  (if truthyOpt options.dimensions then
    (parseSize (options.dimensions.getD "")).map some
  else .ok none).bind fun dims1 =>
    if truthyOpt options.size then
      let sizeValue := trimStr (options.size.getD "")
      if isDimensionToken sizeValue then
        (parseSize sizeValue).map fun d => (some d, none)
      else if (lowerStr sizeValue).data.contains 'x' then
        .error ("Invalid --size \"" ++ options.size.getD "" ++
          "\". Use WxH or one of s,m,l,xl.")
      else
        (parseShapeSize sizeValue).map fun t => (dims1, some t)
    else .ok (dims1, none)

/-- `expandForLabel` from `src/commands/add.ts`: widen a geo shape's base
dimensions to fit the estimated label box. -/
def expandForLabel (base : Dim) (label : Option String)
    (sizeStyle : Option SizeStyle) (font : Option String) : Dim :=
  if truthyOpt label = false then base
  else
    let labelDims := estimateLabelDimensions (label.getD "")
      (sizeStyle.map sizeTierToString) font
    ⟨max base.h labelDims.h, max base.w labelDims.w⟩

/-- The size-relevant fragment of `addShapeToFile` in `src/commands/add.ts`
composed with the record factory of `src/store/factory.ts`: the shape record
the materialization step creates from a non-connector instruction, carrying
only the fields the geometry functions read (position, per-kind props).
Store I/O, z-index assignment, non-size style validation and arrow endpoint
resolution are outside this slice; a connector is rejected. -/
def materializeShapeRecord (instr : DrawInstruction) (position : Point) :
    Except String TLShape :=
  (resolveSizeOptions instr.options).bind fun rs =>
    let dimensions := rs.1
    let sizeStyle := rs.2
    match instr.shape with
    | .arrow => .error "arrow materialization requires endpoint resolution"
    | .rect =>
      let d := expandForLabel (dimensions.getD (DEFAULT_DIMENSIONS_BY_SHAPE
        .rect)) instr.options.label sizeStyle instr.options.font
      .ok ⟨instr.options.id.getD "", position.x, position.y,
        .geo false d.w d.h (toRichText (instr.options.label.getD ""))
          (sizeStyle.getD .m)⟩
    | .ellipse =>
      let d := expandForLabel (dimensions.getD (DEFAULT_DIMENSIONS_BY_SHAPE
        .ellipse)) instr.options.label sizeStyle instr.options.font
      .ok ⟨instr.options.id.getD "", position.x, position.y,
        .geo true d.w d.h (toRichText (instr.options.label.getD ""))
          (sizeStyle.getD .m)⟩
    | .text =>
      let textContent := (instr.content.or instr.options.label).getD ""
      let d := dimensions.getD (DEFAULT_DIMENSIONS_BY_SHAPE .text)
      .ok ⟨instr.options.id.getD "", position.x, position.y,
        .text d.w (toRichText textContent) (sizeStyle.getD .m)⟩
    | .frame =>
      let d := dimensions.getD (DEFAULT_DIMENSIONS_BY_SHAPE .frame)
      .ok ⟨instr.options.id.getD "", position.x, position.y,
        .frame d.w d.h
          ((instr.options.label.or instr.content).getD "Frame")⟩
    | .note =>
      .ok ⟨instr.options.id.getD "", position.x, position.y,
        .note (toRichText ((instr.content.or instr.options.label).getD ""))
          (sizeStyle.getD .m)⟩

/-- The effective width and height of the materialized shape — what
`getShapeSize` reports for the record `addShapeToFile` creates. -/
def materializedShapeSize (instr : DrawInstruction) : Except String Dim :=
  (materializeShapeRecord instr ⟨0, 0⟩).map fun sh =>
    (getShapeSize sh).getD ⟨0, 0⟩

/-- Modelled from the spec: a 2-D point with real coordinates, used by the
border-point computation. The implementation of `getShapeBorderPoint`
(`src/store/shapes.ts`) is absent from the sources; only its tests and its
call site in `src/commands/add.ts` remain, so the function is modelled from
the spec over the reals. -/
@[ext]
structure RPoint where
  x : ℝ
  y : ℝ

/-- Modelled from the spec: the border-point computation distinguishes an
ellipse boundary from a rectangular one; only ellipse geo shapes get the
ellipse treatment. -/
def isEllipseShape (shape : TLShape) : Bool :=
  match shape.props with
  | .geo isEllipse _ _ _ _ => isEllipse
  | _ => false

open Classical in
/-- Modelled from the spec: `getShapeBorderPoint(shape, towardPoint,
padding)`. If `towardPoint` equals the shape center exactly, the center is
returned unchanged. Otherwise, with `dx, dy` the vector from center to
`towardPoint`: for a rectangular boundary the candidate parameters are
`tX = halfWidth/|dx|` and `tY = halfHeight/|dy|` (a zero component means an
infinite `t` on that axis), `tY < tX` strictly selects the horizontal-edge
exit, and the result is the center plus `(dx, dy)` scaled by the winning
`t`; for an ellipse boundary `(dx, dy)` is normalized by the two radii and
scaled by the reciprocal of the normalized length. Either way the boundary
point is then pushed outward by `padding` along the unit direction. -/
noncomputable def getShapeBorderPoint (shape : TLShape) (toward : RPoint)
    (padding : ℝ) : RPoint :=
  let center : RPoint :=
    ⟨((getShapeCenter shape).x : ℝ), ((getShapeCenter shape).y : ℝ)⟩
  if toward.x = center.x ∧ toward.y = center.y then center
  else
    let dx : ℝ := toward.x - center.x
    let dy : ℝ := toward.y - center.y
    let halfW : ℝ := (((getShapeBounds shape).w : ℚ) : ℝ) / 2
    let halfH : ℝ := (((getShapeBounds shape).h : ℚ) : ℝ) / 2
    let unitX : ℝ := dx / Real.sqrt (dx ^ 2 + dy ^ 2)
    let unitY : ℝ := dy / Real.sqrt (dx ^ 2 + dy ^ 2)
    let edge : RPoint :=
      if isEllipseShape shape then
        let t := 1 / Real.sqrt ((dx / halfW) ^ 2 + (dy / halfH) ^ 2)
        ⟨center.x + dx * t, center.y + dy * t⟩
      else
        let t :=
          if dx = 0 then halfH / |dy|
          else if dy = 0 then halfW / |dx|
          else if halfH / |dy| < halfW / |dx| then halfH / |dy|
          else halfW / |dx|
        ⟨center.x + dx * t, center.y + dy * t⟩
    ⟨edge.x + padding * unitX, edge.y + padding * unitY⟩

theorem stackShapesGo_eq_ok {α : Type} (getW getH : α → ℚ)
    (direction : LayoutDirection) (gap : ℚ) (shapes : List α) (cursor : Point)
    (hvalid : ∀ s ∈ shapes, 0 < getW s ∧ 0 < getH s) :
    stackShapesGo getW getH direction gap shapes cursor =
      .ok (stackPositions getW getH direction gap shapes cursor) := by
  induction shapes generalizing cursor with
  | nil => rfl
  | cons s rest ih =>
    have hw := (hvalid s (List.mem_cons_self s rest)).1
    have hh := (hvalid s (List.mem_cons_self s rest)).2
    have hrest : ∀ t ∈ rest, 0 < getW t ∧ 0 < getH t := fun t ht =>
      hvalid t (List.mem_cons_of_mem s ht)
    simp only [stackShapesGo, validateDimension, if_neg (not_le.mpr hw),
      if_neg (not_le.mpr hh), Except.bind, stackPositions]
    rw [ih _ hrest]
    rfl

theorem stackShapes_eq_ok {α : Type} (getW getH : α → ℚ) (shapes : List α)
    (direction : LayoutDirection) (origin : Point) (gap : ℚ)
    (hvalid : ∀ s ∈ shapes, 0 < getW s ∧ 0 < getH s) (hgap : 0 ≤ gap) :
    stackShapes getW getH shapes direction origin gap =
      .ok (stackPositions getW getH direction gap shapes origin) := by
  simp only [stackShapes, validateOrigin, validateGap, if_neg (not_lt.mpr hgap),
    Except.bind]
  exact stackShapesGo_eq_ok getW getH direction gap shapes origin hvalid

theorem stackPositions_map_fst {α : Type} (getW getH : α → ℚ)
    (direction : LayoutDirection) (gap : ℚ) (shapes : List α) (cursor : Point) :
    (stackPositions getW getH direction gap shapes cursor).map Prod.fst =
      shapes := by
  induction shapes generalizing cursor with
  | nil => rfl
  | cons s rest ih => simp [stackPositions, ih]

theorem stackPositions_length {α : Type} (getW getH : α → ℚ)
    (direction : LayoutDirection) (gap : ℚ) (shapes : List α) (cursor : Point) :
    (stackPositions getW getH direction gap shapes cursor).length =
      shapes.length := by
  induction shapes generalizing cursor with
  | nil => rfl
  | cons s rest ih => simp [stackPositions, ih]

theorem stackPositions_cross_vertical {α : Type} (getW getH : α → ℚ) (gap : ℚ)
    (shapes : List α) (cursor : Point) :
    ∀ p ∈ stackPositions getW getH .vertical gap shapes cursor,
      p.2.x = cursor.x := by
  induction shapes generalizing cursor with
  | nil => intro p hp; simp [stackPositions] at hp
  | cons s rest ih =>
    intro p hp
    simp only [stackPositions, List.mem_cons] at hp
    rcases hp with hp | hp
    · rw [hp]
    · exact ih ⟨cursor.x, cursor.y + getH s + gap⟩ p hp

theorem stackPositions_cross_horizontal {α : Type} (getW getH : α → ℚ)
    (gap : ℚ) (shapes : List α) (cursor : Point) :
    ∀ p ∈ stackPositions getW getH .horizontal gap shapes cursor,
      p.2.y = cursor.y := by
  induction shapes generalizing cursor with
  | nil => intro p hp; simp [stackPositions] at hp
  | cons s rest ih =>
    intro p hp
    simp only [stackPositions, List.mem_cons] at hp
    rcases hp with hp | hp
    · rw [hp]
    · exact ih ⟨cursor.x + getW s + gap, cursor.y⟩ p hp

theorem stackPositions_step_vertical {α : Type} (getW getH : α → ℚ) (gap : ℚ)
    (shapes : List α) (cursor : Point) (d : α × Point) (ds : α) :
    ∀ i, i + 1 < shapes.length →
      ((stackPositions getW getH .vertical gap shapes cursor).getD (i + 1) d).2.y =
        ((stackPositions getW getH .vertical gap shapes cursor).getD i d).2.y
          + getH (shapes.getD i ds) + gap := by
  induction shapes generalizing cursor with
  | nil => intro i hi; simp at hi
  | cons s rest ih =>
    intro i hi
    match i with
    | 0 =>
      cases rest with
      | nil => simp at hi
      | cons r rest' => simp [stackPositions]
    | Nat.succ j =>
      have hj : j + 1 < rest.length := by simpa using hi
      simpa [stackPositions] using
        ih ⟨cursor.x, cursor.y + getH s + gap⟩ j hj

theorem stackPositions_step_horizontal {α : Type} (getW getH : α → ℚ) (gap : ℚ)
    (shapes : List α) (cursor : Point) (d : α × Point) (ds : α) :
    ∀ i, i + 1 < shapes.length →
      ((stackPositions getW getH .horizontal gap shapes cursor).getD (i + 1) d).2.x =
        ((stackPositions getW getH .horizontal gap shapes cursor).getD i d).2.x
          + getW (shapes.getD i ds) + gap := by
  induction shapes generalizing cursor with
  | nil => intro i hi; simp at hi
  | cons s rest ih =>
    intro i hi
    match i with
    | 0 =>
      cases rest with
      | nil => simp at hi
      | cons r rest' => simp [stackPositions]
    | Nat.succ j =>
      have hj : j + 1 < rest.length := by simpa using hi
      simpa [stackPositions] using
        ih ⟨cursor.x + getW s + gap, cursor.y⟩ j hj

theorem bumpMax_length (l : List ℚ) (i : ℕ) (v : ℚ) :
    (bumpMax l i v).length = l.length := by
  simp [bumpMax]

theorem bumpMax_getD_eq (l : List ℚ) (i : ℕ) (v : ℚ) (hi : i < l.length) :
    (bumpMax l i v).getD i 0 = max (l.getD i 0) v := by
  simp [bumpMax, List.getD_eq_getElem?_getD, List.getElem?_set, hi]

theorem bumpMax_getD_ne (l : List ℚ) (i j : ℕ) (v : ℚ) (hij : i ≠ j) :
    (bumpMax l i v).getD j 0 = l.getD j 0 := by
  simp [bumpMax, List.getD_eq_getElem?_getD, List.getElem?_set, hij]

theorem foldl_bump_length {β : Type} (key : β → ℕ) (val : β → ℚ)
    (ps : List β) (L : List ℚ) :
    (ps.foldl (fun acc p => bumpMax acc (key p) (val p)) L).length =
      L.length := by
  induction ps generalizing L with
  | nil => rfl
  | cons p rest ih => simp [List.foldl_cons, ih, bumpMax_length]

theorem foldl_bump_getD {β : Type} (key : β → ℕ) (val : β → ℚ) (ps : List β)
    (L : List ℚ) (c : ℕ) (hc : c < L.length) :
    (ps.foldl (fun acc p => bumpMax acc (key p) (val p)) L).getD c 0 =
      ((ps.filter (fun p => key p == c)).map val).foldl max (L.getD c 0) := by
  induction ps generalizing L with
  | nil => rfl
  | cons p rest ih =>
    simp only [List.foldl_cons, List.filter_cons]
    have hc' : c < (bumpMax L (key p) (val p)).length := by
      rw [bumpMax_length]; exact hc
    by_cases hk : key p = c
    · rw [ih _ hc']
      simp only [hk, beq_self_eq_true, if_true, List.map_cons, List.foldl_cons]
      congr 1
      exact bumpMax_getD_eq L c (val p) hc
    · rw [ih _ hc']
      have hne : (key p == c) = false := beq_eq_false_iff_ne.mpr hk
      simp only [hne, Bool.false_eq_true, if_false]
      congr 1
      exact bumpMax_getD_ne L (key p) c (val p) hk

theorem offsetsFrom_length (start gap : ℚ) (ws : List ℚ) :
    (offsetsFrom start gap ws).length = ws.length := by
  induction ws generalizing start with
  | nil => rfl
  | cons w rest ih => simp [offsetsFrom, ih]

theorem offsetsFrom_getD (gap : ℚ) (ws : List ℚ) (start : ℚ) (c : ℕ)
    (hc : c < ws.length) (d : ℚ) :
    (offsetsFrom start gap ws).getD c d =
      start + ((List.range c).map (fun k => ws.getD k 0 + gap)).sum := by
  induction ws generalizing start c with
  | nil => simp at hc
  | cons w rest ih =>
    match c with
    | 0 => simp [offsetsFrom]
    | Nat.succ j =>
      have hj : j < rest.length := by simpa using hc
      simp only [offsetsFrom, List.getD_cons_succ]
      rw [ih _ j hj]
      rw [List.range_succ_eq_map]
      simp only [List.map_cons, List.map_map, List.sum_cons,
        List.getD_cons_zero]
      have : (List.map ((fun k => (w :: rest).getD k 0 + gap) ∘ Nat.succ)
          (List.range j)).sum =
          ((List.range j).map (fun k => rest.getD k 0 + gap)).sum := by
        congr 1
      rw [this]
      ring

theorem validateShapesG_eq_ok {α : Type} (getW getH : α → ℚ) (shapes : List α)
    (hvalid : ∀ s ∈ shapes, 0 < getW s ∧ 0 < getH s) :
    validateShapesG getW getH shapes = .ok () := by
  induction shapes with
  | nil => rfl
  | cons s rest ih =>
    have hw := (hvalid s (List.mem_cons_self s rest)).1
    have hh := (hvalid s (List.mem_cons_self s rest)).2
    simp only [validateShapesG, validateDimension, if_neg (not_le.mpr hw),
      if_neg (not_le.mpr hh), Except.bind]
    exact ih fun t ht => hvalid t (List.mem_cons_of_mem s ht)

/-- C2: for every grid layout input with a positive integer column count,
finite origin, gap ≥ 0 and shapes of finite positive dimensions (finiteness
is automatic over `ℚ`), `gridShapes` succeeds and places the shape at index
`i` at x-coordinate `origin.x` plus the sum over the columns before
`i % cols` of (that column's maximum shape width + gap), and y-coordinate
`origin.y` plus the sum over the rows before `i / cols` of (that row's
maximum shape height + gap); an empty shape list returns an empty result
without error. -/
theorem grid_layout_positions :
    (∀ (shapes : List LayoutShape) (origin : Point) (cols gap : ℚ),
      (∀ s ∈ shapes, 0 < s.w ∧ 0 < s.h) → 0 ≤ gap → cols.den = 1 → 0 < cols →
      ∃ out, gridShapes LayoutShape.w LayoutShape.h shapes origin cols gap =
          .ok out ∧
        out.map Prod.fst = shapes ∧
        (∀ (i : ℕ), i < shapes.length → ∀ d : LayoutShape × Point,
          (out.getD i d).2.x = origin.x +
            ((List.range (i % cols.num.toNat)).map
              (fun k =>
                gridColWidth LayoutShape.w cols.num.toNat shapes k + gap)).sum ∧
          (out.getD i d).2.y = origin.y +
            ((List.range (i / cols.num.toNat)).map
              (fun k =>
                gridRowHeight LayoutShape.h cols.num.toNat shapes k + gap)).sum)) ∧
    (∀ (origin : Point) (cols gap : ℚ), 0 ≤ gap → cols.den = 1 → 0 < cols →
      gridShapes LayoutShape.w LayoutShape.h [] origin cols gap = .ok []) := by
  constructor
  · intro shapes origin cols gap hvalid hgap hden hpos
    have hcond : ¬¬(cols.den = 1 ∧ 0 < cols) := not_not_intro ⟨hden, hpos⟩
    have hn : 0 < cols.num.toNat := by
      have : 0 < cols.num := Rat.num_pos.mpr hpos
      omega
    set n : ℕ := cols.num.toNat with hn_def
    by_cases hlen : shapes.length = 0
    · refine ⟨[], ?_, ?_, ?_⟩
      · simp only [gridShapes, validateOrigin, validateGap,
          if_neg (not_lt.mpr hgap), Except.bind, if_neg hcond, if_pos hlen]
      · simpa using (List.length_eq_zero.mp hlen).symm
      · intro i hi; omega
    · set rowCount : ℕ := (shapes.length + n - 1) / n with hrc_def
      set colWidths : List ℚ :=
        shapes.enum.foldl (fun acc p => bumpMax acc (p.1 % n) (p.2.w))
          (List.replicate n 0) with hcw_def
      set rowHeights : List ℚ :=
        shapes.enum.foldl (fun acc p => bumpMax acc (p.1 / n) (p.2.h))
          (List.replicate rowCount 0) with hrh_def
      set out : List (LayoutShape × Point) :=
        shapes.enum.map (fun p =>
          (p.2, ⟨(offsetsFrom origin.x gap colWidths).getD (p.1 % n) origin.x,
                 (offsetsFrom origin.y gap rowHeights).getD (p.1 / n)
                   origin.y⟩)) with hout_def
      refine ⟨out, ?_, ?_, ?_⟩
      · simp only [gridShapes, validateOrigin, validateGap,
          if_neg (not_lt.mpr hgap), Except.bind, if_neg hcond, if_neg hlen,
          validateShapesG_eq_ok _ _ _ hvalid]
      · simp only [hout_def, List.map_map]
        have hcomp : (Prod.fst ∘ fun p : ℕ × LayoutShape =>
            ((p.2 : LayoutShape),
              (⟨(offsetsFrom origin.x gap colWidths).getD (p.1 % n) origin.x,
                (offsetsFrom origin.y gap rowHeights).getD (p.1 / n)
                  origin.y⟩ : Point))) = Prod.snd := rfl
        rw [hcomp, List.enum_map_snd]
      · intro i hi d
        have hcwlen : colWidths.length = n := by
          rw [hcw_def, foldl_bump_length, List.length_replicate]
        have hrhlen : rowHeights.length = rowCount := by
          rw [hrh_def, foldl_bump_length, List.length_replicate]
        have hmod : i % n < n := Nat.mod_lt _ hn
        have hdiv : i / n < rowCount := by
          have h1 : i / n ≤ (shapes.length - 1) / n :=
            Nat.div_le_div_right (by omega)
          have h2 : rowCount = (shapes.length - 1) / n + 1 := by
            rw [hrc_def]
            have h3 : shapes.length + n - 1 = shapes.length - 1 + n := by omega
            rw [h3, Nat.add_div_right _ hn]
          omega
        have hgetout : out.getD i d =
            (shapes.getD i d.1,
              ⟨(offsetsFrom origin.x gap colWidths).getD (i % n) origin.x,
               (offsetsFrom origin.y gap rowHeights).getD (i / n) origin.y⟩) := by
          rw [hout_def, List.getD_eq_getElem?_getD, List.getElem?_map,
            List.getElem?_enum, List.getElem?_eq_getElem hi]
          simp [List.getD_eq_getElem?_getD, List.getElem?_eq_getElem hi]
        rw [hgetout]
        dsimp only
        constructor
        · rw [offsetsFrom_getD gap colWidths origin.x (i % n)
            (by rw [hcwlen]; exact hmod) origin.x]
          congr 1
          congr 1
          apply List.map_congr_left
          intro k hk
          have hkn : k < n := lt_trans (List.mem_range.mp hk) hmod
          congr 1
          rw [hcw_def, foldl_bump_getD (fun p => p.1 % n)
            (fun p : ℕ × LayoutShape => p.2.w) shapes.enum
            (List.replicate n 0) k (by simpa using hkn)]
          simp [gridColWidth, List.getD_eq_getElem?_getD,
            List.getElem?_replicate, hkn]
        · rw [offsetsFrom_getD gap rowHeights origin.y (i / n)
            (by rw [hrhlen]; exact hdiv) origin.y]
          congr 1
          congr 1
          apply List.map_congr_left
          intro k hk
          have hkr : k < rowCount := lt_trans (List.mem_range.mp hk) hdiv
          congr 1
          rw [hrh_def, foldl_bump_getD (fun p => p.1 / n)
            (fun p : ℕ × LayoutShape => p.2.h) shapes.enum
            (List.replicate rowCount 0) k (by simpa using hkr)]
          simp [gridRowHeight, List.getD_eq_getElem?_getD,
            List.getElem?_replicate, hkr]
  · intro origin cols gap hgap hden hpos
    have hcond : ¬¬(cols.den = 1 ∧ 0 < cols) := not_not_intro ⟨hden, hpos⟩
    simp only [gridShapes, validateOrigin, validateGap,
      if_neg (not_lt.mpr hgap), Except.bind, if_neg hcond, List.length_nil]
    simp

theorem min_add_abs_sub (a b : ℚ) : min a b + |b - a| = max a b := by
  rcases le_total a b with h | h
  · rw [min_eq_left h, max_eq_right h, abs_of_nonneg (by linarith)]
    ring
  · rw [min_eq_right h, max_eq_left h, abs_of_nonpos (by linarith)]
    ring

/-- C4 counterexample: for a purely vertical connector, `getShapeBounds`
returns width 0, so the claimed "width and height are each at least 1" is
false for the bounds function. -/
theorem connector_bounds_no_floor_counterexample :
    (getShapeBounds verticalArrow).w = 0 ∧
      ¬(1 ≤ (getShapeBounds verticalArrow).w) := by
  norm_num [getShapeBounds, verticalArrow]

/-- C4 (amended): for every connector shape, `getShapeBounds` returns the
axis-aligned box spanning its two absolute endpoints (shape origin plus the
stored relative offsets) with width `|Δx|` and height `|Δy|` — without any
floor; the floor at 1 is applied by the arrow branch of `getShapeSize`,
whose result is componentwise `max 1` of the bounds extent. -/
theorem connector_bounds_span (sh : TLShape) (st en : Point) (rt : RichText)
    (hprops : sh.props = .arrow st en rt) :
    (getShapeBounds sh).x = min (sh.x + st.x) (sh.x + en.x) ∧
    (getShapeBounds sh).y = min (sh.y + st.y) (sh.y + en.y) ∧
    (getShapeBounds sh).x + (getShapeBounds sh).w =
      max (sh.x + st.x) (sh.x + en.x) ∧
    (getShapeBounds sh).y + (getShapeBounds sh).h =
      max (sh.y + st.y) (sh.y + en.y) ∧
    getShapeSize sh =
      some ⟨max 1 (getShapeBounds sh).h, max 1 (getShapeBounds sh).w⟩ := by
  have hb : getShapeBounds sh =
      ⟨|(sh.y + en.y) - (sh.y + st.y)|, |(sh.x + en.x) - (sh.x + st.x)|,
       min (sh.x + st.x) (sh.x + en.x), min (sh.y + st.y) (sh.y + en.y)⟩ := by
    simp [getShapeBounds, hprops]
  refine ⟨by rw [hb], by rw [hb], ?_, ?_, ?_⟩
  · rw [hb]
    exact min_add_abs_sub (sh.x + st.x) (sh.x + en.x)
  · rw [hb]
    exact min_add_abs_sub (sh.y + st.y) (sh.y + en.y)
  · rw [hb]
    simp only [getShapeSize, hprops]
    have hx : en.x - st.x = (sh.x + en.x) - (sh.x + st.x) := by ring
    have hy : en.y - st.y = (sh.y + en.y) - (sh.y + st.y) := by ring
    rw [hx, hy]

/-- Witness for C4's amended theorem at a concrete diagonal connector. -/
theorem connector_bounds_span_witness :
    (getShapeBounds ⟨"shape:a2", 3, 4, .arrow ⟨1, 2⟩ ⟨5, 1⟩ []⟩).x =
        min (3 + 1 : ℚ) (3 + 5) ∧
      (getShapeBounds ⟨"shape:a2", 3, 4, .arrow ⟨1, 2⟩ ⟨5, 1⟩ []⟩).y =
        min (4 + 2 : ℚ) (4 + 1) ∧
      (getShapeBounds ⟨"shape:a2", 3, 4, .arrow ⟨1, 2⟩ ⟨5, 1⟩ []⟩).x +
          (getShapeBounds ⟨"shape:a2", 3, 4, .arrow ⟨1, 2⟩ ⟨5, 1⟩ []⟩).w =
        max (3 + 1 : ℚ) (3 + 5) ∧
      (getShapeBounds ⟨"shape:a2", 3, 4, .arrow ⟨1, 2⟩ ⟨5, 1⟩ []⟩).y +
          (getShapeBounds ⟨"shape:a2", 3, 4, .arrow ⟨1, 2⟩ ⟨5, 1⟩ []⟩).h =
        max (4 + 2 : ℚ) (4 + 1) ∧
      getShapeSize ⟨"shape:a2", 3, 4, .arrow ⟨1, 2⟩ ⟨5, 1⟩ []⟩ =
        some ⟨max 1 (getShapeBounds ⟨"shape:a2", 3, 4,
            .arrow ⟨1, 2⟩ ⟨5, 1⟩ []⟩).h,
          max 1 (getShapeBounds ⟨"shape:a2", 3, 4,
            .arrow ⟨1, 2⟩ ⟨5, 1⟩ []⟩).w⟩ :=
  connector_bounds_span ⟨"shape:a2", 3, 4, .arrow ⟨1, 2⟩ ⟨5, 1⟩ []⟩
    ⟨1, 2⟩ ⟨5, 1⟩ [] rfl

theorem foldl_min_le_init {α : Type} (f : α → ℚ) (l : List α) (init : ℚ) :
    l.foldl (fun acc t => min acc (f t)) init ≤ init := by
  induction l generalizing init with
  | nil => exact le_refl _
  | cons a rest ih =>
    exact le_trans (ih (min init (f a))) (min_le_left _ _)

theorem foldl_min_le_mem {α : Type} (f : α → ℚ) (l : List α) (init : ℚ) :
    ∀ a ∈ l, l.foldl (fun acc t => min acc (f t)) init ≤ f a := by
  induction l generalizing init with
  | nil => intro a ha; simp at ha
  | cons b rest ih =>
    intro a ha
    rcases List.mem_cons.mp ha with h | h
    · subst h
      exact le_trans (foldl_min_le_init f rest (min init (f a)))
        (min_le_right _ _)
    · exact ih (min init (f b)) a h

theorem foldl_min_attained {α : Type} (f : α → ℚ) (l : List α) (init : ℚ) :
    l.foldl (fun acc t => min acc (f t)) init = init ∨
      ∃ a ∈ l, l.foldl (fun acc t => min acc (f t)) init = f a := by
  induction l generalizing init with
  | nil => exact Or.inl rfl
  | cons b rest ih =>
    rcases ih (min init (f b)) with h | ⟨a, ha, h⟩
    · rcases min_cases init (f b) with ⟨he, _⟩ | ⟨he, _⟩
      · exact Or.inl (by rw [List.foldl_cons, h, he])
      · exact Or.inr ⟨b, List.mem_cons_self b rest,
          by rw [List.foldl_cons, h, he]⟩
    · exact Or.inr ⟨a, List.mem_cons_of_mem b ha, by rw [List.foldl_cons, h]⟩

theorem foldl_max_init_le {α : Type} (f : α → ℚ) (l : List α) (init : ℚ) :
    init ≤ l.foldl (fun acc t => max acc (f t)) init := by
  induction l generalizing init with
  | nil => exact le_refl _
  | cons a rest ih =>
    exact le_trans (le_max_left _ _) (ih (max init (f a)))

theorem foldl_max_mem_le {α : Type} (f : α → ℚ) (l : List α) (init : ℚ) :
    ∀ a ∈ l, f a ≤ l.foldl (fun acc t => max acc (f t)) init := by
  induction l generalizing init with
  | nil => intro a ha; simp at ha
  | cons b rest ih =>
    intro a ha
    rcases List.mem_cons.mp ha with h | h
    · subst h
      exact le_trans (le_max_right _ _)
        (foldl_max_init_le f rest (max init (f a)))
    · exact ih (max init (f b)) a h

theorem foldl_max_attained {α : Type} (f : α → ℚ) (l : List α) (init : ℚ) :
    l.foldl (fun acc t => max acc (f t)) init = init ∨
      ∃ a ∈ l, l.foldl (fun acc t => max acc (f t)) init = f a := by
  induction l generalizing init with
  | nil => exact Or.inl rfl
  | cons b rest ih =>
    rcases ih (max init (f b)) with h | ⟨a, ha, h⟩
    · rcases max_cases init (f b) with ⟨he, _⟩ | ⟨he, _⟩
      · exact Or.inl (by rw [List.foldl_cons, h, he])
      · exact Or.inr ⟨b, List.mem_cons_self b rest,
          by rw [List.foldl_cons, h, he]⟩
    · exact Or.inr ⟨a, List.mem_cons_of_mem b ha, by rw [List.foldl_cons, h]⟩

/-- C10: the vector export viewport is the union of all shape bounds expanded
by `padding` on each side (every padded shape box is contained, the top-left
corner is attained by some shape, and the extent exceeds some shape pair's
padded span by less than the integer round-up), with width floored at 200 and
height floored at 120; an empty shape list yields the fixed default viewport
(width 200, height 120, top-left `(-padding, -padding)`). -/
theorem export_viewport_spec :
    (∀ padding : ℚ, getExportBounds [] padding = ⟨120, -padding, -padding, 200⟩) ∧
    (∀ (shapes : List TLShape) (padding : ℚ), shapes ≠ [] →
      200 ≤ (getExportBounds shapes padding).width ∧
      120 ≤ (getExportBounds shapes padding).height ∧
      (∀ s ∈ shapes,
        (getExportBounds shapes padding).minX ≤
          (getShapeBounds s).x - padding ∧
        (getExportBounds shapes padding).minY ≤
          (getShapeBounds s).y - padding ∧
        (getShapeBounds s).x + (getShapeBounds s).w + padding ≤
          (getExportBounds shapes padding).minX +
            (getExportBounds shapes padding).width ∧
        (getShapeBounds s).y + (getShapeBounds s).h + padding ≤
          (getExportBounds shapes padding).minY +
            (getExportBounds shapes padding).height) ∧
      (∃ s ∈ shapes,
        (getExportBounds shapes padding).minX =
          (getShapeBounds s).x - padding) ∧
      (∃ s ∈ shapes,
        (getExportBounds shapes padding).minY =
          (getShapeBounds s).y - padding) ∧
      (∃ s1 ∈ shapes, ∃ s2 ∈ shapes,
        (getExportBounds shapes padding).width ≤
          max 200 ((getShapeBounds s1).x + (getShapeBounds s1).w -
            (getShapeBounds s2).x + 2 * padding + 1)) ∧
      (∃ s1 ∈ shapes, ∃ s2 ∈ shapes,
        (getExportBounds shapes padding).height ≤
          max 120 ((getShapeBounds s1).y + (getShapeBounds s1).h -
            (getShapeBounds s2).y + 2 * padding + 1))) := by
  constructor
  · intro padding
    rfl
  · intro shapes padding hne
    obtain ⟨s, rest, rfl⟩ := List.exists_cons_of_ne_nil hne
    set mX : ℚ := rest.foldl (fun acc t => min acc (getShapeBounds t).x)
      (getShapeBounds s).x with hmX
    set mY : ℚ := rest.foldl (fun acc t => min acc (getShapeBounds t).y)
      (getShapeBounds s).y with hmY
    set bX : ℚ := rest.foldl
      (fun acc t => max acc ((getShapeBounds t).x + (getShapeBounds t).w))
      ((getShapeBounds s).x + (getShapeBounds s).w) with hbX
    set bY : ℚ := rest.foldl
      (fun acc t => max acc ((getShapeBounds t).y + (getShapeBounds t).h))
      ((getShapeBounds s).y + (getShapeBounds s).h) with hbY
    have hunfold : getExportBounds (s :: rest) padding =
        ⟨max 120 ((⌈bY - mY + padding * 2⌉ : ℤ) : ℚ), mX - padding,
         mY - padding, max 200 ((⌈bX - mX + padding * 2⌉ : ℤ) : ℚ)⟩ := rfl
    have hminX : ∀ a ∈ s :: rest, mX ≤ (getShapeBounds a).x := by
      intro a ha
      rcases List.mem_cons.mp ha with h | h
      · subst h; exact foldl_min_le_init _ rest _
      · exact foldl_min_le_mem _ rest _ a h
    have hminY : ∀ a ∈ s :: rest, mY ≤ (getShapeBounds a).y := by
      intro a ha
      rcases List.mem_cons.mp ha with h | h
      · subst h; exact foldl_min_le_init _ rest _
      · exact foldl_min_le_mem _ rest _ a h
    have hmaxX : ∀ a ∈ s :: rest,
        (getShapeBounds a).x + (getShapeBounds a).w ≤ bX := by
      intro a ha
      rcases List.mem_cons.mp ha with h | h
      · subst h; exact foldl_max_init_le _ rest _
      · exact foldl_max_mem_le _ rest _ a h
    have hmaxY : ∀ a ∈ s :: rest,
        (getShapeBounds a).y + (getShapeBounds a).h ≤ bY := by
      intro a ha
      rcases List.mem_cons.mp ha with h | h
      · subst h; exact foldl_max_init_le _ rest _
      · exact foldl_max_mem_le _ rest _ a h
    have hceilX : (bX - mX + padding * 2 : ℚ) ≤
        ((⌈bX - mX + padding * 2⌉ : ℤ) : ℚ) := Int.le_ceil _
    have hceilY : (bY - mY + padding * 2 : ℚ) ≤
        ((⌈bY - mY + padding * 2⌉ : ℤ) : ℚ) := Int.le_ceil _
    have hceilX' : ((⌈bX - mX + padding * 2⌉ : ℤ) : ℚ) <
        bX - mX + padding * 2 + 1 := Int.ceil_lt_add_one _
    have hceilY' : ((⌈bY - mY + padding * 2⌉ : ℤ) : ℚ) <
        bY - mY + padding * 2 + 1 := Int.ceil_lt_add_one _
    rw [hunfold]
    refine ⟨le_max_left _ _, le_max_left _ _, ?_, ?_, ?_, ?_, ?_⟩
    · intro a ha
      refine ⟨by have := hminX a ha; dsimp only; linarith,
        by have := hminY a ha; dsimp only; linarith, ?_, ?_⟩
      · have h1 := hmaxX a ha
        have h2 : ((⌈bX - mX + padding * 2⌉ : ℤ) : ℚ) ≤
            max 200 ((⌈bX - mX + padding * 2⌉ : ℤ) : ℚ) := le_max_right _ _
        dsimp only
        linarith
      · have h1 := hmaxY a ha
        have h2 : ((⌈bY - mY + padding * 2⌉ : ℤ) : ℚ) ≤
            max 120 ((⌈bY - mY + padding * 2⌉ : ℤ) : ℚ) := le_max_right _ _
        dsimp only
        linarith
    · rcases foldl_min_attained (fun t => (getShapeBounds t).x) rest
          ((getShapeBounds s).x) with h | ⟨a, ha, h⟩
      · exact ⟨s, List.mem_cons_self s rest, by dsimp only; rw [← hmX] at h; rw [h]⟩
      · exact ⟨a, List.mem_cons_of_mem s ha, by dsimp only; rw [← hmX] at h; rw [h]⟩
    · rcases foldl_min_attained (fun t => (getShapeBounds t).y) rest
          ((getShapeBounds s).y) with h | ⟨a, ha, h⟩
      · exact ⟨s, List.mem_cons_self s rest, by dsimp only; rw [← hmY] at h; rw [h]⟩
      · exact ⟨a, List.mem_cons_of_mem s ha, by dsimp only; rw [← hmY] at h; rw [h]⟩
    · have hEx1 : ∃ a ∈ s :: rest,
          bX = (getShapeBounds a).x + (getShapeBounds a).w := by
        rcases foldl_max_attained
            (fun t => (getShapeBounds t).x + (getShapeBounds t).w) rest
            ((getShapeBounds s).x + (getShapeBounds s).w) with h | ⟨a, ha, h⟩
        · exact ⟨s, List.mem_cons_self s rest, by rw [hbX]; exact h⟩
        · exact ⟨a, List.mem_cons_of_mem s ha, by rw [hbX]; exact h⟩
      have hEx2 : ∃ a ∈ s :: rest, mX = (getShapeBounds a).x := by
        rcases foldl_min_attained (fun t => (getShapeBounds t).x) rest
            ((getShapeBounds s).x) with h | ⟨a, ha, h⟩
        · exact ⟨s, List.mem_cons_self s rest, by rw [hmX]; exact h⟩
        · exact ⟨a, List.mem_cons_of_mem s ha, by rw [hmX]; exact h⟩
      obtain ⟨a1, ha1, he1⟩ := hEx1
      obtain ⟨a2, ha2, he2⟩ := hEx2
      refine ⟨a1, ha1, a2, ha2, ?_⟩
      dsimp only
      rw [← he1, ← he2]
      exact max_le_max (le_refl 200) (by linarith)
    · have hEx1 : ∃ a ∈ s :: rest,
          bY = (getShapeBounds a).y + (getShapeBounds a).h := by
        rcases foldl_max_attained
            (fun t => (getShapeBounds t).y + (getShapeBounds t).h) rest
            ((getShapeBounds s).y + (getShapeBounds s).h) with h | ⟨a, ha, h⟩
        · exact ⟨s, List.mem_cons_self s rest, by rw [hbY]; exact h⟩
        · exact ⟨a, List.mem_cons_of_mem s ha, by rw [hbY]; exact h⟩
      have hEx2 : ∃ a ∈ s :: rest, mY = (getShapeBounds a).y := by
        rcases foldl_min_attained (fun t => (getShapeBounds t).y) rest
            ((getShapeBounds s).y) with h | ⟨a, ha, h⟩
        · exact ⟨s, List.mem_cons_self s rest, by rw [hmY]; exact h⟩
        · exact ⟨a, List.mem_cons_of_mem s ha, by rw [hmY]; exact h⟩
      obtain ⟨a1, ha1, he1⟩ := hEx1
      obtain ⟨a2, ha2, he2⟩ := hEx2
      refine ⟨a1, ha1, a2, ha2, ?_⟩
      dsimp only
      rw [← he1, ← he2]
      exact max_le_max (le_refl 120) (by linarith)

/-- Witness for C10 at the default padding 24 and a single rectangle. -/
theorem export_viewport_spec_witness :
    getExportBounds ([] : List TLShape) 24 = ⟨120, -24, -24, 200⟩ ∧
      200 ≤ (getExportBounds [sampleRect] 24).width ∧
      120 ≤ (getExportBounds [sampleRect] 24).height :=
  ⟨export_viewport_spec.1 24,
   (export_viewport_spec.2 [sampleRect] 24 (by simp)).1,
   (export_viewport_spec.2 [sampleRect] 24 (by simp)).2.1⟩

theorem tokenizeGo_inQuotes_accum (context : String) (s : List Char)
    (hs : ∀ c ∈ s, c ≠ '"' ∧ c ≠ '\\') :
    ∀ (rest : List Char) (tokens : List Token) (tq : Bool)
      (current : List Char),
      tokenizeGo context (s ++ rest) tokens true false tq current =
        tokenizeGo context rest tokens true false tq (current ++ s) := by
  induction s with
  | nil => intro rest tokens tq current; simp
  | cons c s' ih =>
    intro rest tokens tq current
    have hc := hs c (List.mem_cons_self c s')
    have hs' : ∀ b ∈ s', b ≠ '"' ∧ b ≠ '\\' := fun b hb =>
      hs b (List.mem_cons_of_mem c hb)
    rw [List.cons_append]
    show tokenizeGo context (c :: (s' ++ rest)) tokens true false tq current =
      tokenizeGo context rest tokens true false tq (current ++ c :: s')
    rw [tokenizeGo]
    rw [if_neg (by simp [hc.1]), if_neg (by simp), if_neg (by simp [hc.2])]
    rw [ih hs' rest tokens tq (current ++ [c])]
    simp

theorem tokenizeGo_plain_accum (context : String) (s : List Char)
    (hs : ∀ c ∈ s, c ≠ '"' ∧ isWhitespaceChar c = false) :
    ∀ (rest : List Char) (tokens : List Token) (tq : Bool)
      (current : List Char),
      tokenizeGo context (s ++ rest) tokens false false tq current =
        tokenizeGo context rest tokens false false tq (current ++ s) := by
  induction s with
  | nil => intro rest tokens tq current; simp
  | cons c s' ih =>
    intro rest tokens tq current
    have hc := hs c (List.mem_cons_self c s')
    have hs' : ∀ b ∈ s', b ≠ '"' ∧ isWhitespaceChar b = false := fun b hb =>
      hs b (List.mem_cons_of_mem c hb)
    rw [List.cons_append]
    show tokenizeGo context (c :: (s' ++ rest)) tokens false false tq current =
      tokenizeGo context rest tokens false false tq (current ++ c :: s')
    rw [tokenizeGo]
    rw [if_neg (by simp [hc.1]), if_neg (by simp [hc.2]),
      if_neg (by simp)]
    rw [ih hs' rest tokens tq (current ++ [c])]
    simp

theorem stripGo_outside (s : List Char) (hs : ∀ c ∈ s, c ≠ '#' ∧ c ≠ '"') :
    ∀ (esc : Bool) (rest : List Char), ∃ esc' : Bool,
      stripInlineCommentGo false esc (s ++ rest) =
        s ++ stripInlineCommentGo false esc' rest := by
  induction s with
  | nil => intro esc rest; exact ⟨esc, by simp⟩
  | cons c s' ih =>
    intro esc rest
    have hc := hs c (List.mem_cons_self c s')
    have hs' : ∀ b ∈ s', b ≠ '#' ∧ b ≠ '"' := fun b hb =>
      hs b (List.mem_cons_of_mem c hb)
    obtain ⟨esc', he⟩ := ih hs' (decide (c = '\\' ∧ ¬esc)) rest
    refine ⟨esc', ?_⟩
    rw [List.cons_append]
    show stripInlineCommentGo false esc (c :: (s' ++ rest)) =
      (c :: s') ++ stripInlineCommentGo false esc' rest
    rw [stripInlineCommentGo]
    have hq : (if c = '"' ∧ ¬esc then !false else false) = false := by
      simp [hc.2]
    rw [hq, if_neg (by simp [hc.1]), he]
    simp

theorem stripGo_inQuotes (s : List Char)
    (hs : ∀ c ∈ s, c ≠ '"' ∧ c ≠ '\\') :
    ∀ rest : List Char,
      stripInlineCommentGo true false (s ++ rest) =
        s ++ stripInlineCommentGo true false rest := by
  induction s with
  | nil => intro rest; simp
  | cons c s' ih =>
    intro rest
    have hc := hs c (List.mem_cons_self c s')
    have hs' : ∀ b ∈ s', b ≠ '"' ∧ b ≠ '\\' := fun b hb =>
      hs b (List.mem_cons_of_mem c hb)
    rw [List.cons_append]
    show stripInlineCommentGo true false (c :: (s' ++ rest)) =
      (c :: s') ++ stripInlineCommentGo true false rest
    rw [stripInlineCommentGo]
    have hq : (if c = '"' ∧ ¬false then !true else true) = true := by
      simp [hc.1]
    have hb : decide (c = '\\' ∧ ¬false) = false := by simp [hc.2]
    rw [hq, if_neg (by simp), hb, ih hs' rest]
    simp

/-- C6: the lexer yields one token per double-quote-delimited region
regardless of internal whitespace; whitespace outside quotes separates
tokens; a backslash inside quotes escapes the following character; an
unterminated quote is a fatal error naming the line context; and the comment
pre-pass truncates the line at the first `#` outside quotes while keeping a
`#` inside quotes as literal text. -/
theorem lexer_quote_comment_spec :
    (∀ (context : String) (s : List Char), s ≠ [] →
      (∀ c ∈ s, c ≠ '"' ∧ c ≠ '\\') →
      tokenize ⟨'"' :: (s ++ ['"'])⟩ context = .ok [⟨true, ⟨s⟩⟩]) ∧
    (∀ (context : String) (s1 s2 : List Char), s1 ≠ [] → s2 ≠ [] →
      (∀ c ∈ s1, c ≠ '"' ∧ isWhitespaceChar c = false) →
      (∀ c ∈ s2, c ≠ '"' ∧ isWhitespaceChar c = false) →
      tokenize ⟨s1 ++ ' ' :: s2⟩ context =
        .ok [⟨false, ⟨s1⟩⟩, ⟨false, ⟨s2⟩⟩]) ∧
    (∀ (context : String) (c : Char),
      tokenize ⟨['"', '\\', c, '"']⟩ context = .ok [⟨true, ⟨[c]⟩⟩]) ∧
    (∀ (context : String) (s : List Char),
      (∀ c ∈ s, c ≠ '"' ∧ c ≠ '\\') →
      tokenize ⟨'"' :: s⟩ context =
        .error ("Unterminated quote in " ++ context)) ∧
    (∀ (s t : List Char), (∀ c ∈ s, c ≠ '#' ∧ c ≠ '"') →
      stripInlineComment ⟨s ++ '#' :: t⟩ = ⟨s⟩) ∧
    (∀ (t u : List Char),
      (∀ c ∈ t, c ≠ '"' ∧ c ≠ '\\') → (∀ c ∈ u, c ≠ '"' ∧ c ≠ '\\') →
      stripInlineComment ⟨'"' :: ((t ++ '#' :: u) ++ ['"'])⟩ =
        ⟨'"' :: ((t ++ '#' :: u) ++ ['"'])⟩) := by
  refine ⟨?_, ?_, ?_, ?_, ?_, ?_⟩
  · intro context s hne hs
    show tokenizeGo context ('"' :: (s ++ ['"'])) [] false false false [] = _
    rw [tokenizeGo, if_pos (by simp)]
    simp only [Bool.not_false]
    rw [tokenizeGo_inQuotes_accum context s hs ['"'] [] true []]
    rw [tokenizeGo, if_pos (by simp)]
    simp only [Bool.not_true]
    rw [tokenizeGo, if_neg (by simp)]
    simp [pushCurrent, List.length_pos.mpr hne]
  · intro context s1 s2 h1 h2 hs1 hs2
    show tokenizeGo context (s1 ++ ' ' :: s2) [] false false false [] = _
    rw [tokenizeGo_plain_accum context s1 hs1 (' ' :: s2) [] false []]
    simp only [List.nil_append]
    rw [tokenizeGo, if_neg (by simp), if_pos (by simp [isWhitespaceChar]),
      if_pos (by simpa using List.length_pos.mpr h1)]
    conv_lhs => rw [show (s2 : List Char) = s2 ++ [] by simp]
    rw [tokenizeGo_plain_accum context s2 hs2 [] _ false []]
    rw [tokenizeGo, if_neg (by simp)]
    simp [pushCurrent, List.length_pos.mpr h2]
  · intro context c
    show tokenizeGo context ['"', '\\', c, '"'] [] false false false [] = _
    rw [tokenizeGo, if_pos (by simp)]
    simp only [Bool.not_false]
    rw [tokenizeGo, if_neg (by simp), if_neg (by simp), if_pos (by simp)]
    rw [tokenizeGo, if_neg (by simp), if_neg (by simp), if_neg (by simp)]
    rw [tokenizeGo, if_pos (by simp)]
    simp only [Bool.not_true]
    rw [tokenizeGo, if_neg (by simp)]
    simp [pushCurrent]
  · intro context s hs
    show tokenizeGo context ('"' :: s) [] false false false [] = _
    rw [tokenizeGo, if_pos (by simp)]
    simp only [Bool.not_false]
    conv_lhs => rw [show (s : List Char) = s ++ [] by simp]
    rw [tokenizeGo_inQuotes_accum context s hs [] [] true []]
    rw [tokenizeGo, if_pos rfl]
  · intro s t hs
    show (⟨stripInlineCommentGo false false (s ++ '#' :: t)⟩ : String) = ⟨s⟩
    obtain ⟨esc', he⟩ := stripGo_outside s hs false ('#' :: t)
    rw [he]
    have hstop : stripInlineCommentGo false esc' ('#' :: t) = [] := by
      rw [stripInlineCommentGo]
      simp
    rw [hstop]
    simp
  · intro t u ht hu
    show (⟨stripInlineCommentGo false false
        ('"' :: ((t ++ '#' :: u) ++ ['"']))⟩ : String) = _
    have hrearr : (t ++ '#' :: u) ++ ['"'] = t ++ ('#' :: (u ++ ['"'])) := by
      simp
    have hopen : ∀ rest : List Char,
        stripInlineCommentGo false false ('"' :: rest) =
          '"' :: stripInlineCommentGo true false rest := by
      intro rest
      rw [stripInlineCommentGo]
      simp
    have hhash : ∀ rest : List Char,
        stripInlineCommentGo true false ('#' :: rest) =
          '#' :: stripInlineCommentGo true false rest := by
      intro rest
      rw [stripInlineCommentGo]
      simp
    have hclose : stripInlineCommentGo true false ['"'] = ['"'] := by
      rw [stripInlineCommentGo]
      simp [stripInlineCommentGo]
    rw [hopen, hrearr, stripGo_inQuotes t ht ('#' :: (u ++ ['"'])), hhash,
      stripGo_inQuotes u hu ['"'], hclose]

/-- Witness for C6: each clause of the lexer specification applied at a
concrete line. -/
theorem lexer_quote_comment_spec_witness :
    tokenize ⟨'"' :: ("Header Two".data ++ ['"'])⟩ "line 1" =
        .ok [⟨true, ⟨"Header Two".data⟩⟩] ∧
      tokenize ⟨"rect".data ++ ' ' :: "0,0".data⟩ "line 2" =
        .ok [⟨false, ⟨"rect".data⟩⟩, ⟨false, ⟨"0,0".data⟩⟩] ∧
      tokenize ⟨['"', '\\', 'x', '"']⟩ "line 3" = .ok [⟨true, ⟨['x']⟩⟩] ∧
      tokenize ⟨'"' :: "abc".data⟩ "line 4" =
        .error ("Unterminated quote in " ++ "line 4") ∧
      stripInlineComment ⟨"rect 1,2 ".data ++ '#' :: " comment".data⟩ =
        ⟨"rect 1,2 ".data⟩ ∧
      stripInlineComment ⟨'"' :: (("a ".data ++ '#' :: " b".data) ++ ['"'])⟩ =
        ⟨'"' :: (("a ".data ++ '#' :: " b".data) ++ ['"'])⟩ :=
  ⟨lexer_quote_comment_spec.1 "line 1" "Header Two".data (by decide)
     (by decide),
   lexer_quote_comment_spec.2.1 "line 2" "rect".data "0,0".data (by decide)
     (by decide) (by decide) (by decide),
   lexer_quote_comment_spec.2.2.1 "line 3" 'x',
   lexer_quote_comment_spec.2.2.2.1 "line 4" "abc".data (by decide),
   lexer_quote_comment_spec.2.2.2.2.1 "rect 1,2 ".data " comment".data
     (by decide),
   lexer_quote_comment_spec.2.2.2.2.2 "a ".data " b".data (by decide)
     (by decide)⟩

theorem takeWhile_ne_eq_append (l1 l2 : List Char)
    (h : ∀ c ∈ l1, c ≠ '=') :
    (l1 ++ '=' :: l2).takeWhile (fun c => c ≠ '=') = l1 := by
  induction l1 with
  | nil => simp
  | cons c r ih =>
    have hc := h c (List.mem_cons_self c r)
    simp only [List.cons_append, List.takeWhile_cons, decide_eq_true_eq]
    rw [if_pos hc, ih (fun b hb => h b (List.mem_cons_of_mem c hb))]

theorem parseKeyValue_eq (q : Bool) (k v : String) (context : String)
    (hk : ∀ c ∈ k.data, c ≠ '=') (hk0 : k ≠ "") (hkt : trimStr k = k)
    (hvt : trimStr v = v) (hv : v ≠ "") :
    parseKeyValue ⟨q, k ++ "=" ++ v⟩ context = .ok (k, v) := by
  have hdata : (k ++ "=" ++ v).data = k.data ++ '=' :: v.data := by
    simp [String.data_append]
  have htake : ((k ++ "=" ++ v).data).takeWhile (fun c => c ≠ '=') = k.data := by
    rw [hdata]
    exact takeWhile_ne_eq_append k.data v.data hk
  have hk0' : k.data ≠ [] := fun hnil => hk0 (by
    cases k
    simp at hnil
    simp [hnil])
  have hlen0 : ¬(k.data.length = 0) := fun h =>
    hk0' (List.length_eq_zero.mp h)
  have hlenne : ¬(k.data.length = (k ++ "=" ++ v).data.length) := by
    rw [hdata]
    simp
  have hdrop : ((k ++ "=" ++ v).data).drop (k.data.length + 1) = v.data := by
    rw [hdata]
    have : k.data ++ '=' :: v.data = (k.data ++ ['=']) ++ v.data := by simp
    rw [this]
    have hlen : (k.data ++ ['=']).length = k.data.length + 1 := by simp
    rw [← hlen, List.drop_left]
  rw [parseKeyValue]
  simp only [htake, hdrop]
  rw [if_neg (by push_neg; exact ⟨hlen0, hlenne⟩)]
  have hmk_k : (⟨k.data⟩ : String) = k := rfl
  have hmk_v : (⟨v.data⟩ : String) = v := rfl
  rw [hmk_k, hmk_v, hkt, hvt]
  rw [if_neg (by
    intro hz
    refine hv ?_
    have hd : v.data = [] := List.length_eq_zero.mp hz
    cases v with
    | mk d =>
      rw [show d = ([] : List Char) from hd])]

theorem isKeyValueToken_concat (k v : String) :
    isKeyValueToken (k ++ "=" ++ v) = true := by
  rw [isKeyValueToken]
  have hdata : (k ++ "=" ++ v).data = k.data ++ '=' :: v.data := by
    simp [String.data_append]
  rw [hdata, List.contains_eq_any_beq]
  simp

theorem parseOptionToken_label_eq (q : Bool) (l : String)
    (opts : AddShapeCommandOptions) (context : String) (ap : Bool)
    (hlt : trimStr l = l) (hl : l ≠ "") :
    parseOptionToken ⟨q, "label=" ++ l⟩ opts context ap =
      .ok { opts with label := some l } := by
  have heq : ("label=" ++ l) = ("label" ++ "=" ++ l) := rfl
  rw [parseOptionToken, heq,
    parseKeyValue_eq q "label" l context (by decide) (by decide) (by decide)
      hlt hl]
  simp [Except.bind]

theorem parseOptionToken_unsupported (q : Bool) (k v : String)
    (opts : AddShapeCommandOptions) (context : String) (ap : Bool)
    (hk : ∀ c ∈ k.data, c ≠ '=') (hk0 : k ≠ "") (hkt : trimStr k = k)
    (hvt : trimStr v = v) (hv : v ≠ "")
    (hnotin : k ∉ ["color", "dash", "dimensions", "fill", "font", "from",
      "id", "label", "pos", "size", "to"]) :
    parseOptionToken ⟨q, k ++ "=" ++ v⟩ opts context ap =
      .error ("Unsupported option \"" ++ k ++ "\" in " ++ context) := by
  simp only [List.mem_cons, List.not_mem_nil, or_false] at hnotin
  push_neg at hnotin
  obtain ⟨h1, h2, h3, h4, h5, h6, h7, h8, h9, h10, h11⟩ := hnotin
  rw [parseOptionToken, parseKeyValue_eq q k v context hk hk0 hkt hvt hv]
  simp only [Except.bind]
  rw [if_neg h1, if_neg h2, if_neg h3, if_neg h4, if_neg h5, if_neg h6,
    if_neg h7, if_neg h8, if_neg h9, if_neg h10, if_neg h11]

/-- C7: the positional slots of a basic shape line are filled in order
(kind, then an `x,y` token, then a `WxH` token, then a non-key=value content
token, then only key=value options); the sample line
`rect 0,0 800x60 "Header" fill=semi color=blue` parses to a rectangle at
position `0,0` of size `800x60` with label `Header` and the `fill`/`color`
options; a later non-key=value token is a fatal error; an unrecognized
option key is a fatal error. -/
theorem basic_shape_positional_slots :
    (parseLineInstruction "rect 0,0 800x60 \"Header\" fill=semi color=blue"
        "line 1" true =
      .ok ⟨none,
        { color := some "blue",
          fill := some "semi",
          label := some "Header",
          pos := some "0,0",
          size := some "800x60" },
        .rect⟩) ∧
    (∀ (qp qs qc : Bool) (p sz c context : String),
      isPositionToken p = true → isDimensionToken sz = true →
      isKeyValueToken c = false → c ≠ "" →
      parseBasicShapeInstruction
          [⟨false, "rect"⟩, ⟨qp, p⟩, ⟨qs, sz⟩, ⟨qc, c⟩] context true =
        .ok ⟨none,
          { label := some c, pos := some p, size := some sz }, .rect⟩) ∧
    (∀ (qp qs qc qd : Bool) (p sz c d context : String),
      isPositionToken p = true → isDimensionToken sz = true →
      isKeyValueToken c = false → isKeyValueToken d = false →
      parseBasicShapeInstruction
          [⟨false, "rect"⟩, ⟨qp, p⟩, ⟨qs, sz⟩, ⟨qc, c⟩, ⟨qd, d⟩] context
          true =
        .error ("Unexpected token in " ++ context ++ ": \"" ++ d ++ "\"")) ∧
    (∀ (q : Bool) (k v context : String),
      isPositionToken (k ++ "=" ++ v) = false →
      isDimensionToken (k ++ "=" ++ v) = false →
      (∀ c ∈ k.data, c ≠ '=') → k ≠ "" → trimStr k = k → trimStr v = v →
      v ≠ "" →
      k ∉ ["color", "dash", "dimensions", "fill", "font", "from", "id",
        "label", "pos", "size", "to"] →
      parseBasicShapeInstruction [⟨false, "rect"⟩, ⟨q, k ++ "=" ++ v⟩]
          context true =
        .error ("Unsupported option \"" ++ k ++ "\" in " ++ context)) := by
  refine ⟨rfl, ?_, ?_, ?_⟩
  · intro qp qs qc p sz c context hp hsz hc hcne
    simp only [parseBasicShapeInstruction]
    rw [show parseDrawShape "rect" = some DrawShape.rect from rfl]
    simp only [hp, hsz, hc, if_true, if_pos rfl, Except.bind,
      parseOptionsLoop]
    simp [truthyOpt, hcne]
  · intro qp qs qc qd p sz c d context hp hsz hc hd
    simp only [parseBasicShapeInstruction]
    rw [show parseDrawShape "rect" = some DrawShape.rect from rfl]
    simp only [hp, hsz, hc, hd, if_true, if_pos rfl, Except.bind,
      parseOptionsLoop]
  · intro q k v context hp hsz hk hk0 hkt hvt hv hnotin
    simp only [parseBasicShapeInstruction]
    rw [show parseDrawShape "rect" = some DrawShape.rect from rfl]
    simp only [hp, hsz, isKeyValueToken_concat, Bool.false_eq_true, if_false,
      Except.bind, parseOptionsLoop,
      parseOptionToken_unsupported q k v _ context true hk hk0 hkt hvt hv
        hnotin]
    simp

theorem isKeyValueToken_label (l : String) :
    isKeyValueToken ("label=" ++ l) = true := by
  have heq : ("label=" ++ l) = ("label" ++ "=" ++ l) := rfl
  rw [heq]
  exact isKeyValueToken_concat "label" l

/-- C8: for text and note instructions, positional content and a `label=`
option with differing text is a fatal "provided twice" error; when they
agree or only one is given, that text becomes the instruction content and
the `label` key is dropped from the output options; for the other shape
kinds (rectangle, ellipse, frame), positional content is folded into the
`label` option under the same duplicate-conflict rule. -/
theorem content_label_merge_rule :
    (∀ (q1 q2 q3 : Bool) (shname : String) (sh : DrawShape)
      (c l context : String) (ap : Bool),
      ((shname = "text" ∧ sh = .text) ∨ (shname = "note" ∧ sh = .note)) →
      isPositionToken c = false → isDimensionToken c = false →
      isKeyValueToken c = false → c ≠ "" → trimStr l = l → l ≠ "" → l ≠ c →
      parseBasicShapeInstruction
          [⟨q1, shname⟩, ⟨q2, c⟩, ⟨q3, "label=" ++ l⟩] context ap =
        .error ("Text content was provided twice in " ++ context)) ∧
    (∀ (q1 q2 q3 : Bool) (shname : String) (sh : DrawShape)
      (c context : String) (ap : Bool),
      ((shname = "text" ∧ sh = .text) ∨ (shname = "note" ∧ sh = .note)) →
      isPositionToken c = false → isDimensionToken c = false →
      isKeyValueToken c = false → c ≠ "" → trimStr c = c →
      parseBasicShapeInstruction
          [⟨q1, shname⟩, ⟨q2, c⟩, ⟨q3, "label=" ++ c⟩] context ap =
        .ok ⟨some c, {}, sh⟩) ∧
    (∀ (q1 q2 : Bool) (shname : String) (sh : DrawShape)
      (c context : String) (ap : Bool),
      ((shname = "text" ∧ sh = .text) ∨ (shname = "note" ∧ sh = .note)) →
      isPositionToken c = false → isDimensionToken c = false →
      isKeyValueToken c = false → c ≠ "" →
      parseBasicShapeInstruction [⟨q1, shname⟩, ⟨q2, c⟩] context ap =
        .ok ⟨some c, {}, sh⟩) ∧
    (∀ (q1 q3 : Bool) (shname : String) (sh : DrawShape)
      (l context : String) (ap : Bool),
      ((shname = "text" ∧ sh = .text) ∨ (shname = "note" ∧ sh = .note)) →
      trimStr l = l → l ≠ "" →
      parseBasicShapeInstruction [⟨q1, shname⟩, ⟨q3, "label=" ++ l⟩] context
          ap =
        .ok ⟨some l, {}, sh⟩) ∧
    (∀ (q1 q2 q3 : Bool) (shname : String) (sh : DrawShape)
      (c l context : String) (ap : Bool),
      ((shname = "rect" ∧ sh = .rect) ∨ (shname = "ellipse" ∧ sh = .ellipse)
        ∨ (shname = "frame" ∧ sh = .frame)) →
      isPositionToken c = false → isDimensionToken c = false →
      isKeyValueToken c = false → c ≠ "" → trimStr l = l → l ≠ "" → l ≠ c →
      parseBasicShapeInstruction
          [⟨q1, shname⟩, ⟨q2, c⟩, ⟨q3, "label=" ++ l⟩] context ap =
        .error ("Label was provided twice in " ++ context)) ∧
    (∀ (q1 q2 : Bool) (shname : String) (sh : DrawShape)
      (c context : String) (ap : Bool),
      ((shname = "rect" ∧ sh = .rect) ∨ (shname = "ellipse" ∧ sh = .ellipse)
        ∨ (shname = "frame" ∧ sh = .frame)) →
      isPositionToken c = false → isDimensionToken c = false →
      isKeyValueToken c = false → c ≠ "" →
      parseBasicShapeInstruction [⟨q1, shname⟩, ⟨q2, c⟩] context ap =
        .ok ⟨none, { label := some c }, sh⟩) ∧
    (∀ (q1 q2 q3 : Bool) (shname : String) (sh : DrawShape)
      (c context : String) (ap : Bool),
      ((shname = "rect" ∧ sh = .rect) ∨ (shname = "ellipse" ∧ sh = .ellipse)
        ∨ (shname = "frame" ∧ sh = .frame)) →
      isPositionToken c = false → isDimensionToken c = false →
      isKeyValueToken c = false → c ≠ "" → trimStr c = c →
      parseBasicShapeInstruction
          [⟨q1, shname⟩, ⟨q2, c⟩, ⟨q3, "label=" ++ c⟩] context ap =
        .ok ⟨none, { label := some c }, sh⟩) := by
  refine ⟨?_, ?_, ?_, ?_, ?_, ?_, ?_⟩
  · intro q1 q2 q3 shname sh c l context ap hsh hc1 hc2 hc3 hcne hlt hl hne
    rcases hsh with ⟨hn, hs⟩ | ⟨hn, hs⟩ <;> subst hn <;> subst hs <;>
    · simp only [parseBasicShapeInstruction]
      first
      | rw [show parseDrawShape "text" = some DrawShape.text from rfl]
      | rw [show parseDrawShape "note" = some DrawShape.note from rfl]
      simp only [hc1, hc2, hc3, Bool.false_eq_true, if_false, Except.bind,
        parseOptionsLoop, isKeyValueToken_label,
        parseOptionToken_label_eq q3 l _ context ap hlt hl]
      simp [truthyOpt, hcne, hl, hne]
  · intro q1 q2 q3 shname sh c context ap hsh hc1 hc2 hc3 hcne hct
    rcases hsh with ⟨hn, hs⟩ | ⟨hn, hs⟩ <;> subst hn <;> subst hs <;>
    · simp only [parseBasicShapeInstruction]
      first
      | rw [show parseDrawShape "text" = some DrawShape.text from rfl]
      | rw [show parseDrawShape "note" = some DrawShape.note from rfl]
      simp only [hc1, hc2, hc3, Bool.false_eq_true, if_false, Except.bind,
        parseOptionsLoop, isKeyValueToken_label,
        parseOptionToken_label_eq q3 c _ context ap hct hcne]
      simp [truthyOpt, hcne, Option.or]
  · intro q1 q2 shname sh c context ap hsh hc1 hc2 hc3 hcne
    rcases hsh with ⟨hn, hs⟩ | ⟨hn, hs⟩ <;> subst hn <;> subst hs <;>
    · simp only [parseBasicShapeInstruction]
      first
      | rw [show parseDrawShape "text" = some DrawShape.text from rfl]
      | rw [show parseDrawShape "note" = some DrawShape.note from rfl]
      simp only [hc1, hc2, hc3, Bool.false_eq_true, if_false, Except.bind,
        parseOptionsLoop]
      simp [truthyOpt, hcne, Option.or]
  · intro q1 q3 shname sh l context ap hsh hlt hl
    have hpos : isPositionToken ("label=" ++ l) = false := rfl
    have hdim : isDimensionToken ("label=" ++ l) = false := rfl
    rcases hsh with ⟨hn, hs⟩ | ⟨hn, hs⟩ <;> subst hn <;> subst hs <;>
    · simp only [parseBasicShapeInstruction]
      first
      | rw [show parseDrawShape "text" = some DrawShape.text from rfl]
      | rw [show parseDrawShape "note" = some DrawShape.note from rfl]
      simp only [hpos, hdim, Bool.false_eq_true, if_false, Except.bind,
        parseOptionsLoop, isKeyValueToken_label,
        parseOptionToken_label_eq q3 l _ context ap hlt hl]
      simp [truthyOpt, hl, Option.or]
  · intro q1 q2 q3 shname sh c l context ap hsh hc1 hc2 hc3 hcne hlt hl hne
    rcases hsh with ⟨hn, hs⟩ | ⟨hn, hs⟩ | ⟨hn, hs⟩ <;> subst hn <;> subst hs <;>
    · simp only [parseBasicShapeInstruction]
      first
      | rw [show parseDrawShape "rect" = some DrawShape.rect from rfl]
      | rw [show parseDrawShape "ellipse" = some DrawShape.ellipse from rfl]
      | rw [show parseDrawShape "frame" = some DrawShape.frame from rfl]
      simp only [hc1, hc2, hc3, Bool.false_eq_true, if_false, Except.bind,
        parseOptionsLoop, isKeyValueToken_label,
        parseOptionToken_label_eq q3 l _ context ap hlt hl]
      simp [truthyOpt, hcne, hl, hne]
  · intro q1 q2 shname sh c context ap hsh hc1 hc2 hc3 hcne
    rcases hsh with ⟨hn, hs⟩ | ⟨hn, hs⟩ | ⟨hn, hs⟩ <;> subst hn <;> subst hs <;>
    · simp only [parseBasicShapeInstruction]
      first
      | rw [show parseDrawShape "rect" = some DrawShape.rect from rfl]
      | rw [show parseDrawShape "ellipse" = some DrawShape.ellipse from rfl]
      | rw [show parseDrawShape "frame" = some DrawShape.frame from rfl]
      simp only [hc1, hc2, hc3, Bool.false_eq_true, if_false, Except.bind,
        parseOptionsLoop]
      simp [truthyOpt, hcne]
  · intro q1 q2 q3 shname sh c context ap hsh hc1 hc2 hc3 hcne hct
    rcases hsh with ⟨hn, hs⟩ | ⟨hn, hs⟩ | ⟨hn, hs⟩ <;> subst hn <;> subst hs <;>
    · simp only [parseBasicShapeInstruction]
      first
      | rw [show parseDrawShape "rect" = some DrawShape.rect from rfl]
      | rw [show parseDrawShape "ellipse" = some DrawShape.ellipse from rfl]
      | rw [show parseDrawShape "frame" = some DrawShape.frame from rfl]
      simp only [hc1, hc2, hc3, Bool.false_eq_true, if_false, Except.bind,
        parseOptionsLoop, isKeyValueToken_label,
        parseOptionToken_label_eq q3 c _ context ap hct hcne]
      simp [truthyOpt, hcne]

/-- Witness for C7 at concrete tokens. -/
theorem basic_shape_positional_slots_witness :
    parseBasicShapeInstruction
        [⟨false, "rect"⟩, ⟨false, "5,6"⟩, ⟨false, "30x40"⟩, ⟨true, "Hi"⟩]
        "line 2" true =
      .ok ⟨none,
        { label := some "Hi", pos := some "5,6", size := some "30x40" },
        .rect⟩ ∧
    parseBasicShapeInstruction
        [⟨false, "rect"⟩, ⟨false, "5,6"⟩, ⟨false, "30x40"⟩, ⟨true, "Hi"⟩,
          ⟨false, "oops"⟩] "line 3" true =
      .error ("Unexpected token in " ++ "line 3" ++ ": \"" ++ "oops" ++
        "\"") ∧
    parseBasicShapeInstruction
        [⟨false, "rect"⟩, ⟨false, "weird" ++ "=" ++ "x"⟩] "line 4" true =
      .error ("Unsupported option \"" ++ "weird" ++ "\" in " ++ "line 4") :=
  ⟨basic_shape_positional_slots.2.1 false false true "5,6" "30x40" "Hi"
     "line 2" (by decide) (by decide) (by decide) (by decide),
   basic_shape_positional_slots.2.2.1 false false true false "5,6" "30x40"
     "Hi" "oops" "line 3" (by decide) (by decide) (by decide) (by decide),
   basic_shape_positional_slots.2.2.2 false "weird" "x" "line 4" (by decide)
     (by decide) (by decide) (by decide) (by decide) (by decide) (by decide)
     (by decide)⟩

/-- Witness for C8 at concrete tokens for each clause. -/
theorem content_label_merge_rule_witness :
    parseBasicShapeInstruction
        [⟨false, "text"⟩, ⟨true, "Hi"⟩, ⟨false, "label=" ++ "Other"⟩]
        "line 1" true =
      .error ("Text content was provided twice in " ++ "line 1") ∧
    parseBasicShapeInstruction
        [⟨false, "note"⟩, ⟨true, "Hi"⟩, ⟨false, "label=" ++ "Hi"⟩]
        "line 2" true = .ok ⟨some "Hi", {}, .note⟩ ∧
    parseBasicShapeInstruction [⟨false, "text"⟩, ⟨true, "Hi"⟩] "line 3"
        true = .ok ⟨some "Hi", {}, .text⟩ ∧
    parseBasicShapeInstruction [⟨false, "text"⟩, ⟨false, "label=" ++ "Hi"⟩]
        "line 4" true = .ok ⟨some "Hi", {}, .text⟩ ∧
    parseBasicShapeInstruction
        [⟨false, "rect"⟩, ⟨true, "Hi"⟩, ⟨false, "label=" ++ "Other"⟩]
        "line 5" true =
      .error ("Label was provided twice in " ++ "line 5") ∧
    parseBasicShapeInstruction [⟨false, "ellipse"⟩, ⟨true, "Hi"⟩] "line 6"
        true = .ok ⟨none, { label := some "Hi" }, .ellipse⟩ ∧
    parseBasicShapeInstruction
        [⟨false, "frame"⟩, ⟨true, "Hi"⟩, ⟨false, "label=" ++ "Hi"⟩]
        "line 7" true = .ok ⟨none, { label := some "Hi" }, .frame⟩ :=
  ⟨content_label_merge_rule.1 false true false "text" .text "Hi" "Other"
     "line 1" true (Or.inl ⟨rfl, rfl⟩) (by decide) (by decide) (by decide)
     (by decide) (by decide) (by decide) (by decide),
   content_label_merge_rule.2.1 false true false "note" .note "Hi" "line 2"
     true (Or.inr ⟨rfl, rfl⟩) (by decide) (by decide) (by decide)
     (by decide) (by decide),
   content_label_merge_rule.2.2.1 false true "text" .text "Hi" "line 3"
     true (Or.inl ⟨rfl, rfl⟩) (by decide) (by decide) (by decide)
     (by decide),
   content_label_merge_rule.2.2.2.1 false false "text" .text "Hi" "line 4"
     true (Or.inl ⟨rfl, rfl⟩) (by decide) (by decide),
   content_label_merge_rule.2.2.2.2.1 false true false "rect" .rect "Hi"
     "Other" "line 5" true (Or.inl ⟨rfl, rfl⟩) (by decide) (by decide)
     (by decide) (by decide) (by decide) (by decide) (by decide),
   content_label_merge_rule.2.2.2.2.2.1 false true "ellipse" .ellipse "Hi"
     "line 6" true (Or.inr (Or.inl ⟨rfl, rfl⟩)) (by decide) (by decide)
     (by decide) (by decide),
   content_label_merge_rule.2.2.2.2.2.2 false true false "frame" .frame
     "Hi" "line 7" true (Or.inr (Or.inr ⟨rfl, rfl⟩)) (by decide)
     (by decide) (by decide) (by decide) (by decide)⟩

/-- C1: for every stack layout input with positive finite dimensions, finite
origin and gap ≥ 0 (finiteness automatic over `ℚ`), `stackShapes` succeeds,
keeps the shapes in order, assigns the first shape the origin, keeps the
cross-axis coordinate equal to the origin's on that axis for every shape,
and makes consecutive along-axis coordinates differ by exactly the previous
shape's extent plus the gap; and parsing the stack block
`stack vertical 10,20 gap=15 [ rect 100x30 "Top" / rect 200x40 "Bottom" ]`
yields two rectangle instructions positioned at `10,20` and `10,65`. -/
theorem stack_layout_positions :
    (∀ (shapes : List LayoutShape) (direction : LayoutDirection)
      (origin : Point) (gap : ℚ),
      (∀ s ∈ shapes, 0 < s.w ∧ 0 < s.h) → 0 ≤ gap →
      ∃ out, stackShapes LayoutShape.w LayoutShape.h shapes direction origin
          gap = .ok out ∧
        out.map Prod.fst = shapes ∧
        (∀ d : LayoutShape × Point, 0 < shapes.length →
          (out.getD 0 d).2 = origin) ∧
        (∀ p ∈ out,
          (direction = .vertical → p.2.x = origin.x) ∧
          (direction = .horizontal → p.2.y = origin.y)) ∧
        (∀ (d : LayoutShape × Point) (ds : LayoutShape) (i : ℕ),
          i + 1 < shapes.length →
          (direction = .vertical →
            (out.getD (i + 1) d).2.y =
              (out.getD i d).2.y + (shapes.getD i ds).h + gap) ∧
          (direction = .horizontal →
            (out.getD (i + 1) d).2.x =
              (out.getD i d).2.x + (shapes.getD i ds).w + gap))) ∧
    (parseDsl
        "stack vertical 10,20 gap=15 [\nrect 100x30 \"Top\"\nrect 200x40 \"Bottom\"\n]" =
      .ok [⟨none,
          { label := some "Top", pos := some "10,20",
            size := some "100x30" }, .rect⟩,
        ⟨none,
          { label := some "Bottom", pos := some "10,65",
            size := some "200x40" }, .rect⟩]) := by
  refine ⟨?_, by with_unfolding_all rfl⟩
  · intro shapes direction origin gap hvalid hgap
    refine ⟨stackPositions LayoutShape.w LayoutShape.h direction gap shapes
      origin,
      stackShapes_eq_ok _ _ shapes direction origin gap hvalid hgap,
      stackPositions_map_fst _ _ _ _ _ _, ?_, ?_, ?_⟩
    · intro d hlen
      cases shapes with
      | nil => simp at hlen
      | cons s rest => simp [stackPositions]
    · intro p hp
      constructor
      · intro hdir
        subst hdir
        exact stackPositions_cross_vertical _ _ _ _ _ p hp
      · intro hdir
        subst hdir
        exact stackPositions_cross_horizontal _ _ _ _ _ p hp
    · intro d ds i hi
      constructor
      · intro hdir
        subst hdir
        exact stackPositions_step_vertical _ _ _ _ _ d ds i hi
      · intro hdir
        subst hdir
        exact stackPositions_step_horizontal _ _ _ _ _ d ds i hi

/-- Witness for C1's universally quantified part at the sample block's
dimensions. -/
theorem stack_layout_positions_witness :
    ∃ out,
      stackShapes LayoutShape.w LayoutShape.h
          [⟨100, 30⟩, ⟨200, 40⟩] .vertical ⟨10, 20⟩ 15 = .ok out ∧
        out.map Prod.fst = [⟨100, 30⟩, ⟨200, 40⟩] ∧
        (∀ d : LayoutShape × Point,
          0 < ([⟨100, 30⟩, ⟨200, 40⟩] : List LayoutShape).length →
          (out.getD 0 d).2 = ⟨10, 20⟩) ∧
        (∀ p ∈ out,
          (LayoutDirection.vertical = .vertical → p.2.x = (10 : ℚ)) ∧
          (LayoutDirection.vertical = .horizontal → p.2.y = (20 : ℚ))) ∧
        (∀ (d : LayoutShape × Point) (ds : LayoutShape) (i : ℕ),
          i + 1 < ([⟨100, 30⟩, ⟨200, 40⟩] : List LayoutShape).length →
          (LayoutDirection.vertical = .vertical →
            (out.getD (i + 1) d).2.y = (out.getD i d).2.y +
              (([⟨100, 30⟩, ⟨200, 40⟩] : List LayoutShape).getD i ds).h +
              15) ∧
          (LayoutDirection.vertical = .horizontal →
            (out.getD (i + 1) d).2.x = (out.getD i d).2.x +
              (([⟨100, 30⟩, ⟨200, 40⟩] : List LayoutShape).getD i ds).w +
              15)) :=
  stack_layout_positions.1 [⟨100, 30⟩, ⟨200, 40⟩] .vertical ⟨10, 20⟩ 15
    (by decide) (by decide)

/-- Witness for C2 at a 3-shape, 2-column grid. -/
theorem grid_layout_positions_witness :
    ∃ out,
      gridShapes LayoutShape.w LayoutShape.h
          [⟨100, 30⟩, ⟨200, 40⟩, ⟨50, 60⟩] ⟨5, 7⟩ 2 10 = .ok out ∧
        out.map Prod.fst = [⟨100, 30⟩, ⟨200, 40⟩, ⟨50, 60⟩] ∧
        (∀ (i : ℕ),
          i < ([⟨100, 30⟩, ⟨200, 40⟩, ⟨50, 60⟩] : List LayoutShape).length →
          ∀ d : LayoutShape × Point,
          (out.getD i d).2.x = (5 : ℚ) +
            ((List.range (i % (2 : ℚ).num.toNat)).map
              (fun k => gridColWidth LayoutShape.w (2 : ℚ).num.toNat
                [⟨100, 30⟩, ⟨200, 40⟩, ⟨50, 60⟩] k + 10)).sum ∧
          (out.getD i d).2.y = (7 : ℚ) +
            ((List.range (i / (2 : ℚ).num.toNat)).map
              (fun k => gridRowHeight LayoutShape.h (2 : ℚ).num.toNat
                [⟨100, 30⟩, ⟨200, 40⟩, ⟨50, 60⟩] k + 10)).sum) :=
  grid_layout_positions.1 [⟨100, 30⟩, ⟨200, 40⟩, ⟨50, 60⟩] ⟨5, 7⟩ 2 10
    (by decide) (by decide) (by with_unfolding_all rfl)
    (by with_unfolding_all decide)

/-- C9: connector endpoint targets resolve with precedence coordinate, then
shape id, then shape label (first match, center point), and fail with a
resolution error naming the target exactly when none of the three match. -/
theorem arrow_target_resolution :
    (∀ (target : String) (shapes : List TLShape) (p : Point),
      parsePositionOrNull target = some p →
      resolveArrowTarget target shapes = .ok (p, none)) ∧
    (∀ (target : String) (shapes : List TLShape) (s : TLShape),
      parsePositionOrNull target = none →
      shapes.find? (fun sh => sh.id == target) = some s →
      resolveArrowTarget target shapes = .ok (getShapeCenter s, some s)) ∧
    (∀ (target : String) (shapes : List TLShape) (s : TLShape),
      parsePositionOrNull target = none →
      (∀ sh ∈ shapes, sh.id ≠ target) →
      shapes.find? (fun sh => getShapeLabel sh == some target) = some s →
      resolveArrowTarget target shapes = .ok (getShapeCenter s, some s)) ∧
    (∀ (target : String) (shapes : List TLShape),
      resolveArrowTarget target shapes =
          .error ("Unable to resolve arrow target \"" ++ target ++
            "\" to a coordinate or shape") ↔
        (parsePositionOrNull target = none ∧
          (∀ sh ∈ shapes, sh.id ≠ target) ∧
          (∀ sh ∈ shapes, getShapeLabel sh ≠ some target))) := by
  refine ⟨?_, ?_, ?_, ?_⟩
  · intro target shapes p hp
    rw [resolveArrowTarget, hp]
  · intro target shapes s hp hid
    rw [resolveArrowTarget, hp, hid]
  · intro target shapes s hp hid hlabel
    have hid' : shapes.find? (fun sh => sh.id == target) = none :=
      List.find?_eq_none.mpr fun sh hsh => by
        simpa using hid sh hsh
    rw [resolveArrowTarget, hp, hid', hlabel]
  · intro target shapes
    constructor
    · intro herr
      rw [resolveArrowTarget] at herr
      rcases hp : parsePositionOrNull target with _ | p
      · rw [hp] at herr
        rcases hid : shapes.find? (fun sh => sh.id == target) with _ | s
        · rw [hid] at herr
          rcases hlb : shapes.find? (fun sh => getShapeLabel sh == some target)
              with _ | s
          · refine ⟨rfl, ?_, ?_⟩
            · intro sh hsh
              have := List.find?_eq_none.mp hid sh hsh
              simpa using this
            · intro sh hsh
              have := List.find?_eq_none.mp hlb sh hsh
              simpa using this
          · rw [hlb] at herr
            exact absurd herr (by simp)
        · rw [hid] at herr
          exact absurd herr (by simp)
      · rw [hp] at herr
        exact absurd herr (by simp)
    · intro ⟨hp, hid, hlb⟩
      rw [resolveArrowTarget, hp,
        List.find?_eq_none.mpr fun sh hsh => by simpa using hid sh hsh,
        List.find?_eq_none.mpr fun sh hsh => by simpa using hlb sh hsh]

/-- Witness for C9: a coordinate target, an id target, a label target, and
an unresolvable target over a one-shape page. -/
theorem arrow_target_resolution_witness :
    resolveArrowTarget "5,6" [sampleRect] = .ok (⟨5, 6⟩, none) ∧
      resolveArrowTarget "shape:r1" [sampleRect] =
        .ok (getShapeCenter sampleRect, some sampleRect) ∧
      resolveArrowTarget "Box" [sampleRect] =
        .ok (getShapeCenter sampleRect, some sampleRect) ∧
      resolveArrowTarget "Missing" [sampleRect] =
        .error ("Unable to resolve arrow target \"" ++ "Missing" ++
          "\" to a coordinate or shape") :=
  ⟨arrow_target_resolution.1 "5,6" [sampleRect] ⟨5, 6⟩
     (by with_unfolding_all rfl),
   arrow_target_resolution.2.1 "shape:r1" [sampleRect] sampleRect
     (by with_unfolding_all rfl) (by with_unfolding_all rfl),
   arrow_target_resolution.2.2.1 "Box" [sampleRect] sampleRect
     (by with_unfolding_all rfl) (by with_unfolding_all decide)
     (by with_unfolding_all rfl),
   (arrow_target_resolution.2.2.2 "Missing" [sampleRect]).mpr
     ⟨by with_unfolding_all rfl, by with_unfolding_all decide,
      by with_unfolding_all decide⟩⟩

theorem materializedSizeMatch_rect (content : Option String)
    (options : AddShapeCommandOptions) (d : Dim)
    (hlabel : truthyOpt options.label = false)
    (htrim : trimStr (options.size.getD "") = options.size.getD "")
    (hboth : ¬(truthyOpt options.dimensions = true ∧
      truthyOpt options.size = true ∧
      isDimensionToken (options.size.getD "") = true))
    (hmat : materializedShapeSize ⟨content, options, .rect⟩ = .ok d) :
    resolveInstructionDimensions ⟨content, options, .rect⟩ = .ok d := by
  by_cases hd : truthyOpt options.dimensions
  · rcases hpd : parseSize (options.dimensions.getD "") with e | dimD
    · simp [materializedShapeSize, materializeShapeRecord, resolveSizeOptions,
        hd, hpd, Except.bind, Except.map] at hmat
    · by_cases hs : truthyOpt options.size
      · have hw : isDimensionToken (options.size.getD "") = false := by
          rcases hwr : isDimensionToken (options.size.getD "") with _ | _
          · rfl
          · exact absurd ⟨hd, hs, hwr⟩ hboth
        by_cases hx : 'x' ∈ (lowerStr (options.size.getD "")).data
        · simp [materializedShapeSize, materializeShapeRecord,
            resolveSizeOptions, hd, hpd, hs, htrim, hw, hx, Except.bind,
            Except.map] at hmat
        · rcases hst : parseShapeSize (options.size.getD "") with e | tier
          · simp [materializedShapeSize, materializeShapeRecord,
              resolveSizeOptions, hd, hpd, hs, htrim, hw, hx, hst,
              Except.bind, Except.map] at hmat
          · have hms : materializedShapeSize ⟨content, options, .rect⟩ =
                .ok dimD := by
              simp [materializedShapeSize, materializeShapeRecord,
                resolveSizeOptions, hd, hpd, hs, htrim, hw, hx, hst,
                Except.bind, Except.map, getShapeSize, expandForLabel,
                hlabel]
            rw [hms] at hmat
            cases hmat
            simp [resolveInstructionDimensions, hd, hpd]
      · have hms : materializedShapeSize ⟨content, options, .rect⟩ =
            .ok dimD := by
          simp [materializedShapeSize, materializeShapeRecord,
            resolveSizeOptions, hd, hpd, hs, Except.bind, Except.map,
            getShapeSize, expandForLabel, hlabel]
        rw [hms] at hmat
        cases hmat
        simp [resolveInstructionDimensions, hd, hpd]
  · by_cases hs : truthyOpt options.size
    · by_cases hw : isDimensionToken (options.size.getD "") = true
      · rcases hps : parseSize (options.size.getD "") with e | dimS
        · simp [materializedShapeSize, materializeShapeRecord,
            resolveSizeOptions, hd, hs, htrim, hw, hps, Except.bind,
            Except.map] at hmat
        · have hms : materializedShapeSize ⟨content, options, .rect⟩ =
              .ok dimS := by
            simp [materializedShapeSize, materializeShapeRecord,
              resolveSizeOptions, hd, hs, htrim, hw, hps, Except.bind,
              Except.map, getShapeSize, expandForLabel, hlabel]
          rw [hms] at hmat
          cases hmat
          simp [resolveInstructionDimensions, hd, hs, hw, hps]
      · by_cases hx : 'x' ∈ (lowerStr (options.size.getD "")).data
        · simp [materializedShapeSize, materializeShapeRecord,
            resolveSizeOptions, hd, hs, htrim, hw, hx, Except.bind,
            Except.map] at hmat
        · rcases hst : parseShapeSize (options.size.getD "") with e | tier
          · simp [materializedShapeSize, materializeShapeRecord,
              resolveSizeOptions, hd, hs, htrim, hw, hx, hst, Except.bind,
              Except.map] at hmat
          · have hms : materializedShapeSize ⟨content, options, .rect⟩ =
                .ok (DEFAULT_DIMENSIONS_BY_SHAPE .rect) := by
              simp [materializedShapeSize, materializeShapeRecord,
                resolveSizeOptions, hd, hs, htrim, hw, hx, hst, Except.bind,
                Except.map, getShapeSize, expandForLabel, hlabel]
            rw [hms] at hmat
            cases hmat
            simp [resolveInstructionDimensions, hd, hs, hw,
              DEFAULT_DIMENSIONS_BY_SHAPE, DEFAULT_DIMENSIONS]
    · have hms : materializedShapeSize ⟨content, options, .rect⟩ =
          .ok (DEFAULT_DIMENSIONS_BY_SHAPE .rect) := by
        simp [materializedShapeSize, materializeShapeRecord,
          resolveSizeOptions, hd, hs, Except.bind, Except.map, getShapeSize,
          expandForLabel, hlabel]
      rw [hms] at hmat
      cases hmat
      simp [resolveInstructionDimensions, hd, hs,
        DEFAULT_DIMENSIONS_BY_SHAPE, DEFAULT_DIMENSIONS]

theorem materializedSizeMatch_ellipse (content : Option String)
    (options : AddShapeCommandOptions) (d : Dim)
    (hlabel : truthyOpt options.label = false)
    (htrim : trimStr (options.size.getD "") = options.size.getD "")
    (hboth : ¬(truthyOpt options.dimensions = true ∧
      truthyOpt options.size = true ∧
      isDimensionToken (options.size.getD "") = true))
    (hmat : materializedShapeSize ⟨content, options, .ellipse⟩ = .ok d) :
    resolveInstructionDimensions ⟨content, options, .ellipse⟩ = .ok d := by
  by_cases hd : truthyOpt options.dimensions
  · rcases hpd : parseSize (options.dimensions.getD "") with e | dimD
    · simp [materializedShapeSize, materializeShapeRecord, resolveSizeOptions,
        hd, hpd, Except.bind, Except.map] at hmat
    · by_cases hs : truthyOpt options.size
      · have hw : isDimensionToken (options.size.getD "") = false := by
          rcases hwr : isDimensionToken (options.size.getD "") with _ | _
          · rfl
          · exact absurd ⟨hd, hs, hwr⟩ hboth
        by_cases hx : 'x' ∈ (lowerStr (options.size.getD "")).data
        · simp [materializedShapeSize, materializeShapeRecord,
            resolveSizeOptions, hd, hpd, hs, htrim, hw, hx, Except.bind,
            Except.map] at hmat
        · rcases hst : parseShapeSize (options.size.getD "") with e | tier
          · simp [materializedShapeSize, materializeShapeRecord,
              resolveSizeOptions, hd, hpd, hs, htrim, hw, hx, hst,
              Except.bind, Except.map] at hmat
          · have hms : materializedShapeSize ⟨content, options, .ellipse⟩ =
                .ok dimD := by
              simp [materializedShapeSize, materializeShapeRecord,
                resolveSizeOptions, hd, hpd, hs, htrim, hw, hx, hst,
                Except.bind, Except.map, getShapeSize, expandForLabel,
                hlabel]
            rw [hms] at hmat
            cases hmat
            simp [resolveInstructionDimensions, hd, hpd]
      · have hms : materializedShapeSize ⟨content, options, .ellipse⟩ =
            .ok dimD := by
          simp [materializedShapeSize, materializeShapeRecord,
            resolveSizeOptions, hd, hpd, hs, Except.bind, Except.map,
            getShapeSize, expandForLabel, hlabel]
        rw [hms] at hmat
        cases hmat
        simp [resolveInstructionDimensions, hd, hpd]
  · by_cases hs : truthyOpt options.size
    · by_cases hw : isDimensionToken (options.size.getD "") = true
      · rcases hps : parseSize (options.size.getD "") with e | dimS
        · simp [materializedShapeSize, materializeShapeRecord,
            resolveSizeOptions, hd, hs, htrim, hw, hps, Except.bind,
            Except.map] at hmat
        · have hms : materializedShapeSize ⟨content, options, .ellipse⟩ =
              .ok dimS := by
            simp [materializedShapeSize, materializeShapeRecord,
              resolveSizeOptions, hd, hs, htrim, hw, hps, Except.bind,
              Except.map, getShapeSize, expandForLabel, hlabel]
          rw [hms] at hmat
          cases hmat
          simp [resolveInstructionDimensions, hd, hs, hw, hps]
      · by_cases hx : 'x' ∈ (lowerStr (options.size.getD "")).data
        · simp [materializedShapeSize, materializeShapeRecord,
            resolveSizeOptions, hd, hs, htrim, hw, hx, Except.bind,
            Except.map] at hmat
        · rcases hst : parseShapeSize (options.size.getD "") with e | tier
          · simp [materializedShapeSize, materializeShapeRecord,
              resolveSizeOptions, hd, hs, htrim, hw, hx, hst, Except.bind,
              Except.map] at hmat
          · have hms : materializedShapeSize ⟨content, options, .ellipse⟩ =
                .ok (DEFAULT_DIMENSIONS_BY_SHAPE .ellipse) := by
              simp [materializedShapeSize, materializeShapeRecord,
                resolveSizeOptions, hd, hs, htrim, hw, hx, hst, Except.bind,
                Except.map, getShapeSize, expandForLabel, hlabel]
            rw [hms] at hmat
            cases hmat
            simp [resolveInstructionDimensions, hd, hs, hw,
              DEFAULT_DIMENSIONS_BY_SHAPE, DEFAULT_DIMENSIONS]
    · have hms : materializedShapeSize ⟨content, options, .ellipse⟩ =
          .ok (DEFAULT_DIMENSIONS_BY_SHAPE .ellipse) := by
        simp [materializedShapeSize, materializeShapeRecord,
          resolveSizeOptions, hd, hs, Except.bind, Except.map, getShapeSize,
          expandForLabel, hlabel]
      rw [hms] at hmat
      cases hmat
      simp [resolveInstructionDimensions, hd, hs,
        DEFAULT_DIMENSIONS_BY_SHAPE, DEFAULT_DIMENSIONS]

theorem materializedSizeMatch_frame (content : Option String)
    (options : AddShapeCommandOptions) (d : Dim)
    (htrim : trimStr (options.size.getD "") = options.size.getD "")
    (hboth : ¬(truthyOpt options.dimensions = true ∧
      truthyOpt options.size = true ∧
      isDimensionToken (options.size.getD "") = true))
    (hmat : materializedShapeSize ⟨content, options, .frame⟩ = .ok d) :
    resolveInstructionDimensions ⟨content, options, .frame⟩ = .ok d := by
  by_cases hd : truthyOpt options.dimensions
  · rcases hpd : parseSize (options.dimensions.getD "") with e | dimD
    · simp [materializedShapeSize, materializeShapeRecord, resolveSizeOptions,
        hd, hpd, Except.bind, Except.map] at hmat
    · by_cases hs : truthyOpt options.size
      · have hw : isDimensionToken (options.size.getD "") = false := by
          rcases hwr : isDimensionToken (options.size.getD "") with _ | _
          · rfl
          · exact absurd ⟨hd, hs, hwr⟩ hboth
        by_cases hx : 'x' ∈ (lowerStr (options.size.getD "")).data
        · simp [materializedShapeSize, materializeShapeRecord,
            resolveSizeOptions, hd, hpd, hs, htrim, hw, hx, Except.bind,
            Except.map] at hmat
        · rcases hst : parseShapeSize (options.size.getD "") with e | tier
          · simp [materializedShapeSize, materializeShapeRecord,
              resolveSizeOptions, hd, hpd, hs, htrim, hw, hx, hst,
              Except.bind, Except.map] at hmat
          · have hms : materializedShapeSize ⟨content, options, .frame⟩ =
                .ok dimD := by
              simp [materializedShapeSize, materializeShapeRecord,
                resolveSizeOptions, hd, hpd, hs, htrim, hw, hx, hst,
                Except.bind, Except.map, getShapeSize]
            rw [hms] at hmat
            cases hmat
            simp [resolveInstructionDimensions, hd, hpd]
      · have hms : materializedShapeSize ⟨content, options, .frame⟩ =
            .ok dimD := by
          simp [materializedShapeSize, materializeShapeRecord,
            resolveSizeOptions, hd, hpd, hs, Except.bind, Except.map,
            getShapeSize]
        rw [hms] at hmat
        cases hmat
        simp [resolveInstructionDimensions, hd, hpd]
  · by_cases hs : truthyOpt options.size
    · by_cases hw : isDimensionToken (options.size.getD "") = true
      · rcases hps : parseSize (options.size.getD "") with e | dimS
        · simp [materializedShapeSize, materializeShapeRecord,
            resolveSizeOptions, hd, hs, htrim, hw, hps, Except.bind,
            Except.map] at hmat
        · have hms : materializedShapeSize ⟨content, options, .frame⟩ =
              .ok dimS := by
            simp [materializedShapeSize, materializeShapeRecord,
              resolveSizeOptions, hd, hs, htrim, hw, hps, Except.bind,
              Except.map, getShapeSize]
          rw [hms] at hmat
          cases hmat
          simp [resolveInstructionDimensions, hd, hs, hw, hps]
      · by_cases hx : 'x' ∈ (lowerStr (options.size.getD "")).data
        · simp [materializedShapeSize, materializeShapeRecord,
            resolveSizeOptions, hd, hs, htrim, hw, hx, Except.bind,
            Except.map] at hmat
        · rcases hst : parseShapeSize (options.size.getD "") with e | tier
          · simp [materializedShapeSize, materializeShapeRecord,
              resolveSizeOptions, hd, hs, htrim, hw, hx, hst, Except.bind,
              Except.map] at hmat
          · have hms : materializedShapeSize ⟨content, options, .frame⟩ =
                .ok (DEFAULT_DIMENSIONS_BY_SHAPE .frame) := by
              simp [materializedShapeSize, materializeShapeRecord,
                resolveSizeOptions, hd, hs, htrim, hw, hx, hst, Except.bind,
                Except.map, getShapeSize]
            rw [hms] at hmat
            cases hmat
            simp [resolveInstructionDimensions, hd, hs, hw,
              DEFAULT_DIMENSIONS_BY_SHAPE, DEFAULT_DIMENSIONS]
    · have hms : materializedShapeSize ⟨content, options, .frame⟩ =
          .ok (DEFAULT_DIMENSIONS_BY_SHAPE .frame) := by
        simp [materializedShapeSize, materializeShapeRecord,
          resolveSizeOptions, hd, hs, Except.bind, Except.map, getShapeSize]
      rw [hms] at hmat
      cases hmat
      simp [resolveInstructionDimensions, hd, hs,
        DEFAULT_DIMENSIONS_BY_SHAPE, DEFAULT_DIMENSIONS]

theorem materializedSizeMatch_note (content : Option String)
    (options : AddShapeCommandOptions) (d : Dim)
    (htrim : trimStr (options.size.getD "") = options.size.getD "")
    (hdim : truthyOpt options.dimensions = false)
    (hw : isDimensionToken (options.size.getD "") = false)
    (hmat : materializedShapeSize ⟨content, options, .note⟩ = .ok d) :
    resolveInstructionDimensions ⟨content, options, .note⟩ = .ok d := by
  by_cases hs : truthyOpt options.size
  · by_cases hx : 'x' ∈ (lowerStr (options.size.getD "")).data
    · simp [materializedShapeSize, materializeShapeRecord,
        resolveSizeOptions, hdim, hs, htrim, hw, hx, Except.bind,
        Except.map] at hmat
    · rcases hst : parseShapeSize (options.size.getD "") with e | tier
      · simp [materializedShapeSize, materializeShapeRecord,
          resolveSizeOptions, hdim, hs, htrim, hw, hx, hst, Except.bind,
          Except.map] at hmat
      · have hpt : parseSizeTier (options.size.getD "") = some tier := by
          rcases hh : parseSizeTier (options.size.getD "") with _ | t
          · simp [parseShapeSize, hh] at hst
          · simp [parseShapeSize, hh] at hst
            simp [hh, hst]
        have hms : materializedShapeSize ⟨content, options, .note⟩ =
            .ok (NOTE_DIMENSIONS_BY_SIZE tier) := by
          simp [materializedShapeSize, materializeShapeRecord,
            resolveSizeOptions, hdim, hs, htrim, hw, hx, hst, Except.bind,
            Except.map, getShapeSize]
        rw [hms] at hmat
        cases hmat
        simp [resolveInstructionDimensions, hdim, hs, hw, hpt]
  · have hms : materializedShapeSize ⟨content, options, .note⟩ =
        .ok (NOTE_DIMENSIONS_BY_SIZE .m) := by
      simp [materializedShapeSize, materializeShapeRecord,
        resolveSizeOptions, hdim, hs, Except.bind, Except.map, getShapeSize]
    rw [hms] at hmat
    cases hmat
    simp [resolveInstructionDimensions, hdim, hs, hw,
      NOTE_DIMENSIONS_BY_SIZE, DEFAULT_DIMENSIONS]

/-- C3: counterexample to the claim as stated — the two dimension
computations do not agree for every non-connector instruction. A note
instruction carrying `dimensions=500x500` resolves to 500×500 in the layout
expander (`resolveInstructionDimensions` honours `dimensions=` for every
kind), but the materialization step (`addShapeToFile` composed with the
record factory) builds a note record without any width/height props, so the
created shape measures at the note default 180×220. -/
theorem layout_vs_materialization_counterexample :
    resolveInstructionDimensions
        ⟨none, { dimensions := some "500x500" }, .note⟩ =
      .ok ⟨500, 500⟩ ∧
    materializedShapeSize
        ⟨none, { dimensions := some "500x500" }, .note⟩ =
      .ok ⟨180, 220⟩ ∧
    (⟨500, 500⟩ : Dim) ≠ ⟨180, 220⟩ := by
  refine ⟨by with_unfolding_all rfl, by with_unfolding_all rfl, ?_⟩
  intro h
  have := congrArg Dim.h h
  norm_num at this

/-- C3 (amended): for rectangle, ellipse, frame and note instructions the
layout expander's dimension resolution agrees with the size the
materialization step assigns, provided (a) for rectangles and ellipses no
label option is present (a truthy label makes materialization widen the
shape via `expandForLabel`, which the layout expander never does), (b) the
size option carries no surrounding whitespace (materialization trims it,
the layout expander does not), (c) `dimensions=` and a `WxH`-shaped
`size=` are not both given (materialization lets `size=` win, the layout
expander lets `dimensions=` win), and (d) a note carries neither
`dimensions=` nor a `WxH`-shaped `size=` (the note record has no
width/height props, so materialization ignores both). Whenever
materialization succeeds with size d under these conditions,
`resolveInstructionDimensions` returns exactly d. -/
theorem layout_vs_materialization_dimensions
    (instr : DrawInstruction) (d : Dim)
    (hkind : instr.shape = .rect ∨ instr.shape = .ellipse ∨
      instr.shape = .frame ∨ instr.shape = .note)
    (hlabel : (instr.shape = .rect ∨ instr.shape = .ellipse) →
      truthyOpt instr.options.label = false)
    (htrim : trimStr (instr.options.size.getD "") =
      instr.options.size.getD "")
    (hboth : ¬(truthyOpt instr.options.dimensions = true ∧
      truthyOpt instr.options.size = true ∧
      isDimensionToken (instr.options.size.getD "") = true))
    (hnote : instr.shape = .note →
      truthyOpt instr.options.dimensions = false ∧
      isDimensionToken (instr.options.size.getD "") = false)
    (hmat : materializedShapeSize instr = .ok d) :
    resolveInstructionDimensions instr = .ok d := by
  obtain ⟨content, options, shape⟩ := instr
  rcases hkind with h | h | h | h <;> subst h
  · exact materializedSizeMatch_rect content options d
      (hlabel (Or.inl rfl)) htrim hboth hmat
  · exact materializedSizeMatch_ellipse content options d
      (hlabel (Or.inr rfl)) htrim hboth hmat
  · exact materializedSizeMatch_frame content options d htrim hboth hmat
  · exact materializedSizeMatch_note content options d htrim
      (hnote rfl).1 (hnote rfl).2 hmat

/-- C3 witness: a bare rectangle instruction satisfies every hypothesis and
both pipelines produce the 220×120 rectangle default. -/
theorem layout_vs_materialization_dimensions_witness :
    resolveInstructionDimensions ⟨none, {}, .rect⟩ = .ok ⟨120, 220⟩ :=
  layout_vs_materialization_dimensions ⟨none, {}, .rect⟩ ⟨120, 220⟩
    (Or.inl rfl) (fun _ => rfl) rfl (by decide) (fun h => by cases h)
    (by with_unfolding_all rfl)

/-- C5: the border-point function returns the shape center unchanged (no
padding applied) whenever the target point coincides with the center, and
for a non-ellipse shape targeted from the center along the positive x-axis
with zero padding it returns the midpoint of the right edge,
`(center.x + halfWidth, center.y)`. -/
theorem border_point_spec :
    (∀ (shape : TLShape) (toward : RPoint) (padding : ℝ),
        toward.x = ((getShapeCenter shape).x : ℝ) →
        toward.y = ((getShapeCenter shape).y : ℝ) →
        getShapeBorderPoint shape toward padding =
          ⟨((getShapeCenter shape).x : ℝ),
           ((getShapeCenter shape).y : ℝ)⟩) ∧
    (∀ (shape : TLShape) (toward : RPoint),
        isEllipseShape shape = false →
        toward.y = ((getShapeCenter shape).y : ℝ) →
        ((getShapeCenter shape).x : ℝ) < toward.x →
        getShapeBorderPoint shape toward 0 =
          ⟨((getShapeCenter shape).x : ℝ) +
            (((getShapeBounds shape).w : ℚ) : ℝ) / 2,
           ((getShapeCenter shape).y : ℝ)⟩) := by
  constructor
  · intro shape toward padding hx hy
    simp only [getShapeBorderPoint]
    rw [if_pos ⟨hx, hy⟩]
  · intro shape toward hell hy hx
    have hdx : toward.x - ((getShapeCenter shape).x : ℝ) ≠ 0 := by
      intro h
      have : toward.x = ((getShapeCenter shape).x : ℝ) := by linarith
      linarith
    have hdxpos : (0 : ℝ) < toward.x - ((getShapeCenter shape).x : ℝ) := by
      linarith
    simp only [getShapeBorderPoint]
    rw [if_neg (by
      rintro ⟨h1, _⟩
      exact hdx (by linarith))]
    simp only [hell, Bool.false_eq_true, if_false, hy, sub_self]
    rw [if_neg hdx]
    simp only [if_true]
    ext
    · simp only []
      rw [abs_of_pos hdxpos]
      field_simp
      ring
    · simp only []
      ring

/-- C5 witness: a 100×50 rectangle at the origin has center (50, 25);
targeting the center with padding 7 returns the center, and targeting
(200, 25) with zero padding returns the right-edge midpoint (100, 25). -/
theorem border_point_spec_witness :
    getShapeBorderPoint ⟨"shape:border", 0, 0, .geo false 100 50 [] .m⟩
        ⟨50, 25⟩ 7 = ⟨50, 25⟩ ∧
    getShapeBorderPoint ⟨"shape:border", 0, 0, .geo false 100 50 [] .m⟩
        ⟨200, 25⟩ 0 = ⟨100, 25⟩ := by
  have hc : getShapeCenter
      ⟨"shape:border", 0, 0, .geo false 100 50 [] .m⟩ = ⟨50, 25⟩ := by
    with_unfolding_all rfl
  have hb : getShapeBounds
      ⟨"shape:border", 0, 0, .geo false 100 50 [] .m⟩ = ⟨50, 100, 0, 0⟩ := by
    with_unfolding_all rfl
  constructor
  · have h := border_point_spec.1
      ⟨"shape:border", 0, 0, .geo false 100 50 [] .m⟩ ⟨50, 25⟩ 7
      (by rw [hc]; norm_num) (by rw [hc]; norm_num)
    rw [hc] at h
    rw [h]
    ext <;> norm_num
  · have h := border_point_spec.2
      ⟨"shape:border", 0, 0, .geo false 100 50 [] .m⟩ ⟨200, 25⟩
      rfl (by rw [hc]; norm_num) (by rw [hc]; norm_num)
    rw [hc, hb] at h
    rw [h]
    ext <;> norm_num

end TldrawCli
